import Mathlib

/-!
Verification of the phaedra incremental GPU draw pipeline.

This file shallowly embeds the renderer's data model and operations:

* the Command IR (`RenderCommand`) with its clipping and content-hash
  operations, from phaedra-render-command/src/lib.rs;
* the layer quad arena (`SlotState`, `RenderLayer`, `RenderState`) with bump
  allocation, overflow detection and capacity growth, from
  phaedra-gui/src/renderstate.rs;
* the render-plan builder (`paint_pass`) with its section cache decision,
  from phaedra-gui/src/termwindow/render/paint.rs and render_plan.rs;
* the draw pass (`draw_layer_sections`, `call_draw`) from
  phaedra-gui/src/termwindow/render/draw.rs.

Modelling conventions:

* f32 fields are embedded as rationals; the arithmetic used by the embedded
  operations (min, max, add, sub, div, compare) is exact on the inputs of
  interest, and float-to-integer casts are modelled with explicit
  truncation and saturation.
* machine integers (usize, u64) are embedded as Nat with explicit wrap
  where overflow matters.
* std DefaultHasher is abstracted as the stream of values written to it:
  `content_hash` returns the token stream, of which the real 64-bit
  fingerprint is a pure function, so stream equality models fingerprint
  equality and stream inequality models distinct fingerprint inputs.
* GPU buffers carry no data relevant to the claims; the Continuity Store
  retains only which (zindex, sub_idx) slots have a live buffer.
-/

/-- A rectangle with rational coordinates, embedding
euclid::default::Rect of f32 (origin plus size) used as RectF. -/
structure RectQ where
  x : ℚ
  y : ℚ
  width : ℚ
  height : ℚ
deriving DecidableEq, Repr

/-- The emptiness criterion of euclid Rect::intersection (via Box2D):
the two rectangles overlap in a region of positive width and height. -/
def RectQ.intersects (a b : RectQ) : Prop :=
  max a.x b.x < min (a.x + a.width) (b.x + b.width) ∧
    max a.y b.y < min (a.y + a.height) (b.y + b.height)

instance (a b : RectQ) : Decidable (a.intersects b) := by
  unfold RectQ.intersects; infer_instance

/-- The overlap rectangle computed by euclid Rect::intersection when the
rectangles intersect: componentwise max of origins, min of far corners. -/
def RectQ.interRect (a b : RectQ) : RectQ :=
  { x := max a.x b.x
    y := max a.y b.y
    width := min (a.x + a.width) (b.x + b.width) - max a.x b.x
    height := min (a.y + a.height) (b.y + b.height) - max a.y b.y }

/-- euclid Rect::intersection: some overlap rectangle when the overlap has
positive area, none otherwise. -/
def RectQ.intersection (a b : RectQ) : Option RectQ :=
  if a.intersects b then some (a.interRect b) else none

/-- Closed-rectangle point membership, used to express that the computed
intersection rectangle really is the set intersection. -/
def RectQ.containsPoint (r : RectQ) (px py : ℚ) : Prop :=
  r.x ≤ px ∧ px ≤ r.x + r.width ∧ r.y ≤ py ∧ py ≤ r.y + r.height

/-- QuadMode from phaedra-render-command. -/
inductive QuadMode where
  | glyph
  | colorEmoji
  | backgroundImage
  | solidColor
  | grayScale
deriving DecidableEq, Repr

/-- HsbTransform from phaedra-render-command (f32 fields as rationals). -/
structure HsbTransform where
  hue : ℚ
  saturation : ℚ
  brightness : ℚ
deriving DecidableEq, Repr

/-- TextureCoords from phaedra-render-command. -/
structure TextureCoords where
  left : ℚ
  top : ℚ
  right : ℚ
  bottom : ℚ
deriving DecidableEq, Repr

/-- LinearRgba from phaedra-color-types: four f32 channels. -/
structure LinearRgba where
  r : ℚ
  g : ℚ
  b : ℚ
  a : ℚ
deriving DecidableEq, Repr

/-- RenderCommand from phaedra-render-command/src/lib.rs. -/
inductive RenderCommand where
  | clear (color : LinearRgba)
  | fillRect (layer : Nat) (zindex : Int) (rect : RectQ) (color : LinearRgba)
      (hsv : Option HsbTransform)
  | drawQuad (layer : Nat) (zindex : Int) (position : RectQ)
      (texture : TextureCoords) (fg_color : LinearRgba)
      (alt_color : Option (LinearRgba × ℚ)) (hsv : Option HsbTransform)
      (mode : QuadMode)
  | setClipRect (r : Option RectQ)
  | beginPostProcess
  | batch (cmds : List RenderCommand)
  | nop
deriving Repr

/-- matches!(c, RenderCommand::Nop) as used by the Batch arm of
clip_to_rect. -/
def RenderCommand.isNop : RenderCommand → Bool
  | .nop => true
  | _ => false

mutual

/-- RenderCommand::clip_to_rect from phaedra-render-command/src/lib.rs:
FillRect and DrawQuad geometry is intersected with the clip rectangle
(DrawQuad texture coordinates are reprojected linearly), commands whose
geometry misses the clip become Nop, batches are clipped recursively and
pruned to Nop when all children are pruned, and other commands pass
through unchanged. -/
def RenderCommand.clip_to_rect (cmd : RenderCommand) (clip : RectQ) : RenderCommand :=
  match cmd with
  | .fillRect layer zindex rect color hsv =>
    match rect.intersection clip with
    | some clipped => .fillRect layer zindex clipped color hsv
    | none => .nop
  | .drawQuad layer zindex position texture fg_color alt_color hsv mode =>
    match position.intersection clip with
    | some clipped_pos =>
      let w := position.width
      let h := position.height
      if w ≤ 0 ∨ h ≤ 0 then .nop
      else
        let t_left := (clipped_pos.x - position.x) / w
        let t_right := (clipped_pos.x + clipped_pos.width - position.x) / w
        let t_top := (clipped_pos.y - position.y) / h
        let t_bottom := (clipped_pos.y + clipped_pos.height - position.y) / h
        let tex_w := texture.right - texture.left
        let tex_h := texture.bottom - texture.top
        let clipped_texture : TextureCoords :=
          { left := texture.left + t_left * tex_w
            right := texture.left + t_right * tex_w
            top := texture.top + t_top * tex_h
            bottom := texture.top + t_bottom * tex_h }
        .drawQuad layer zindex clipped_pos clipped_texture fg_color alt_color hsv mode
    | none => .nop
  | .batch cmds =>
    let clipped := (RenderCommand.clipList cmds clip).filter fun c => !c.isNop
    if clipped.isEmpty then .nop else .batch clipped
  | other => other

/-- The Batch arm of clip_to_rect iterates the children in order (the
into_iter().map of the source). -/
def RenderCommand.clipList (cmds : List RenderCommand) (clip : RectQ) :
    List RenderCommand :=
  match cmds with
  | [] => []
  | c :: rest => c.clip_to_rect clip :: RenderCommand.clipList rest clip

end

/-- One value written into the std DefaultHasher while fingerprinting a
command list.  The real hasher's 64-bit output is a pure function of this
write stream, so the stream models the fingerprint. -/
inductive HashToken where
  | tag (n : Nat)
  | bits (v : ℚ)
  | uns (v : Nat)
  | int (v : Int)
  | bool (v : Bool)
deriving DecidableEq, Repr

/-- The discriminant value written by std::mem::discriminant(self).hash for
a RenderCommand, numbered by declaration order. -/
def RenderCommand.discr : RenderCommand → Nat
  | .clear _ => 0
  | .fillRect _ _ _ _ _ => 1
  | .drawQuad _ _ _ _ _ _ _ _ => 2
  | .setClipRect _ => 3
  | .beginPostProcess => 4
  | .batch _ => 5
  | .nop => 6

/-- The discriminant value of a QuadMode, by declaration order. -/
def QuadMode.discr : QuadMode → Nat
  | .glyph => 0
  | .colorEmoji => 1
  | .backgroundImage => 2
  | .solidColor => 3
  | .grayScale => 4

/-- hash_linear_rgba: the four channel bit patterns in order. -/
def hash_linear_rgba (c : LinearRgba) : List HashToken :=
  [.bits c.r, .bits c.g, .bits c.b, .bits c.a]

/-- hash_rectf: origin then size bit patterns. -/
def hash_rectf (r : RectQ) : List HashToken :=
  [.bits r.x, .bits r.y, .bits r.width, .bits r.height]

/-- hash_texture_coords: left, top, right, bottom bit patterns. -/
def hash_texture_coords (t : TextureCoords) : List HashToken :=
  [.bits t.left, .bits t.top, .bits t.right, .bits t.bottom]

/-- hash_opt_hsb: presence flag, then the three fields when present. -/
def hash_opt_hsb (hsv : Option HsbTransform) : List HashToken :=
  match hsv with
  | some h => [.bool true, .bits h.hue, .bits h.saturation, .bits h.brightness]
  | none => [.bool false]

mutual

/-- RenderCommand::hash_command from phaedra-render-command/src/lib.rs:
every command first writes its own discriminant, then its fields; a Batch
writes its discriminant followed by its children's streams in order. -/
def RenderCommand.hash_command : RenderCommand → List HashToken
  | .clear color => .tag 0 :: hash_linear_rgba color
  | .fillRect layer zindex rect color hsv =>
    .tag 1 :: .uns layer :: .int zindex ::
      (hash_rectf rect ++ hash_linear_rgba color ++ hash_opt_hsb hsv)
  | .drawQuad layer zindex position texture fg_color alt_color hsv mode =>
    .tag 2 :: .uns layer :: .int zindex ::
      (hash_rectf position ++ hash_texture_coords texture ++
        hash_linear_rgba fg_color ++
        (.bool alt_color.isSome ::
          (match alt_color with
           | some (c, mix) => hash_linear_rgba c ++ [.bits mix]
           | none => []) ++
          (hash_opt_hsb hsv ++ [.tag mode.discr])))
  | .setClipRect r =>
    .tag 3 ::
      (match r with
       | some rect => .bool true :: hash_rectf rect
       | none => [.bool false])
  | .beginPostProcess => [.tag 4]
  | .batch cmds => .tag 5 :: RenderCommand.hashList cmds
  | .nop => [.tag 6]

/-- The Batch arm of hash_command iterates the children in order. -/
def RenderCommand.hashList : List RenderCommand → List HashToken
  | [] => []
  | c :: rest => c.hash_command ++ RenderCommand.hashList rest

end

/-- RenderCommand::content_hash: the concatenated write streams of the
commands in order (the hasher's finish() is a pure function of this). -/
def RenderCommand.content_hash (commands : List RenderCommand) : List HashToken :=
  RenderCommand.hashList commands

/-- Helper: hash stream of a batch unfolded. -/
theorem hash_command_batch (cmds : List RenderCommand) :
    RenderCommand.hash_command (.batch cmds) =
      .tag 5 :: RenderCommand.content_hash cmds := rfl

/-- Helper: definitional unfolding of clip_to_rect on a FillRect. -/
theorem clip_to_rect_fillRect_eq
    (layer : Nat) (zindex : Int) (rect : RectQ) (color : LinearRgba)
    (hsv : Option HsbTransform) (clip : RectQ) :
    (RenderCommand.fillRect layer zindex rect color hsv).clip_to_rect clip =
      (match rect.intersection clip with
       | some clipped => .fillRect layer zindex clipped color hsv
       | none => .nop) := rfl

/-- Helper: clip_to_rect on an intersecting FillRect keeps the command and
replaces the rect with the overlap. -/
theorem clip_to_rect_fillRect_pos
    (layer : Nat) (zindex : Int) (rect : RectQ) (color : LinearRgba)
    (hsv : Option HsbTransform) (clip : RectQ) (h : rect.intersects clip) :
    (RenderCommand.fillRect layer zindex rect color hsv).clip_to_rect clip =
      .fillRect layer zindex (rect.interRect clip) color hsv := by
  rw [clip_to_rect_fillRect_eq]
  have hsome : rect.intersection clip = some (rect.interRect clip) := by
    simp [RectQ.intersection, h]
  rw [hsome]

/-- Helper: clip_to_rect on a non-intersecting FillRect yields Nop. -/
theorem clip_to_rect_fillRect_neg
    (layer : Nat) (zindex : Int) (rect : RectQ) (color : LinearRgba)
    (hsv : Option HsbTransform) (clip : RectQ) (h : ¬ rect.intersects clip) :
    (RenderCommand.fillRect layer zindex rect color hsv).clip_to_rect clip =
      .nop := by
  rw [clip_to_rect_fillRect_eq]
  have hnone : rect.intersection clip = none := by
    simp [RectQ.intersection, h]
  rw [hnone]

/-- Helper: the spec's first concrete clip example intersects. -/
theorem example_rects_intersect :
    RectQ.intersects ⟨10, 10, 20, 20⟩ ⟨0, 0, 15, 15⟩ := by
  constructor <;> norm_num [max_def, min_def]

/-- C4: clip_to_rect on a FillRect yields Nop iff the rect does not
intersect the clip; otherwise it yields a FillRect whose rect is the
intersection with all other fields unchanged; the intersection rectangle is
pointwise the set intersection of the closed rectangles; and the two
concrete examples from the spec hold. -/
theorem clip_to_rect_fillrect_spec
    (layer : Nat) (zindex : Int) (rect : RectQ) (color : LinearRgba)
    (hsv : Option HsbTransform) (clip : RectQ) :
    ((RenderCommand.fillRect layer zindex rect color hsv).clip_to_rect clip =
        .nop ↔ ¬ rect.intersects clip) ∧
    (rect.intersects clip →
      (RenderCommand.fillRect layer zindex rect color hsv).clip_to_rect clip =
        .fillRect layer zindex (rect.interRect clip) color hsv) ∧
    (∀ px py : ℚ, (rect.interRect clip).containsPoint px py ↔
      (rect.containsPoint px py ∧ clip.containsPoint px py)) ∧
    ((RenderCommand.fillRect 0 2 ⟨10, 10, 20, 20⟩ ⟨1, 1, 1, 1⟩ none).clip_to_rect
        ⟨0, 0, 15, 15⟩ =
      .fillRect 0 2 ⟨10, 10, 5, 5⟩ ⟨1, 1, 1, 1⟩ none) ∧
    ((RenderCommand.fillRect 0 2 ⟨10, 10, 20, 20⟩ ⟨1, 1, 1, 1⟩ none).clip_to_rect
        ⟨100, 100, 10, 10⟩ = .nop) := by
  refine ⟨?_, ?_, ?_, ?_, ?_⟩
  · by_cases h : rect.intersects clip
    · rw [clip_to_rect_fillRect_pos layer zindex rect color hsv clip h]
      simp [h]
    · rw [clip_to_rect_fillRect_neg layer zindex rect color hsv clip h]
      simp [h]
  · exact clip_to_rect_fillRect_pos layer zindex rect color hsv clip
  · intro px py
    simp only [RectQ.containsPoint, RectQ.interRect]
    constructor
    · rintro ⟨h1, h2, h3, h4⟩
      have h2x : px ≤ min (rect.x + rect.width) (clip.x + clip.width) := by
        linarith
      have h4y : py ≤ min (rect.y + rect.height) (clip.y + clip.height) := by
        linarith
      refine ⟨⟨le_trans (le_max_left _ _) h1, ?_, le_trans (le_max_left _ _) h3, ?_⟩,
        le_trans (le_max_right _ _) h1, ?_, le_trans (le_max_right _ _) h3, ?_⟩
      · exact le_trans h2x (min_le_left _ _)
      · exact le_trans h4y (min_le_left _ _)
      · exact le_trans h2x (min_le_right _ _)
      · exact le_trans h4y (min_le_right _ _)
    · rintro ⟨⟨a1, a2, a3, a4⟩, b1, b2, b3, b4⟩
      refine ⟨max_le a1 b1, ?_, max_le a3 b3, ?_⟩
      · have : px ≤ min (rect.x + rect.width) (clip.x + clip.width) :=
          le_min a2 b2
        linarith
      · have : py ≤ min (rect.y + rect.height) (clip.y + clip.height) :=
          le_min a4 b4
        linarith
  · rw [clip_to_rect_fillRect_pos 0 2 ⟨10, 10, 20, 20⟩ ⟨1, 1, 1, 1⟩ none
      ⟨0, 0, 15, 15⟩ example_rects_intersect]
    have : RectQ.interRect ⟨10, 10, 20, 20⟩ ⟨0, 0, 15, 15⟩ =
        (⟨10, 10, 5, 5⟩ : RectQ) := by
      simp only [RectQ.interRect, RectQ.mk.injEq]
      norm_num [max_def, min_def]
    rw [this]
  · apply clip_to_rect_fillRect_neg
    intro h
    rcases h with ⟨hx, _⟩
    rw [show ((⟨10, 10, 20, 20⟩ : RectQ).x ⊔ (⟨100, 100, 10, 10⟩ : RectQ).x) =
      (100 : ℚ) by norm_num [max_def]] at hx
    have : ((⟨10, 10, 20, 20⟩ : RectQ).x + (⟨10, 10, 20, 20⟩ : RectQ).width) ⊓
        ((⟨100, 100, 10, 10⟩ : RectQ).x + (⟨100, 100, 10, 10⟩ : RectQ).width) =
        (30 : ℚ) := by norm_num [min_def]
    rw [this] at hx
    norm_num at hx

/-- C4 witness: the theorem applied at the spec's concrete example,
discharging the intersects hypothesis there. -/
theorem clip_to_rect_fillrect_spec_witness :
    (RenderCommand.fillRect 0 2 ⟨10, 10, 20, 20⟩ ⟨1, 1, 1, 1⟩ none).clip_to_rect
        ⟨0, 0, 15, 15⟩ =
      .fillRect 0 2
        (RectQ.interRect ⟨10, 10, 20, 20⟩ ⟨0, 0, 15, 15⟩) ⟨1, 1, 1, 1⟩ none :=
  (clip_to_rect_fillrect_spec 0 2 ⟨10, 10, 20, 20⟩ ⟨1, 1, 1, 1⟩ none
    ⟨0, 0, 15, 15⟩).2.1 example_rects_intersect

/-- C6 counterexample: content_hash is not transparent for Batch.  The
write stream of a list containing Batch(L) starts with the Batch
discriminant, which the stream of L itself lacks, already for L = [] and
for L = [Nop]. -/
theorem content_hash_batch_not_transparent :
    RenderCommand.content_hash [.batch []] ≠ RenderCommand.content_hash [] ∧
    RenderCommand.content_hash [.batch [.nop]] ≠
      RenderCommand.content_hash [.nop] := by
  constructor <;>
    simp [RenderCommand.content_hash, RenderCommand.hashList,
      RenderCommand.hash_command]

/-- C6 amended: hashing writes each command's own discriminant first,
including for Batch; a Batch then contributes its children's streams in
order.  Hence content_hash of a list containing Batch(L) is the Batch
discriminant token followed by content_hash of L, not content_hash of L
itself. -/
theorem content_hash_batch_tag_cons (L : List RenderCommand) :
    RenderCommand.content_hash [.batch L] =
      HashToken.tag 5 :: RenderCommand.content_hash L := by
  show RenderCommand.hashList [.batch L] = _
  show RenderCommand.hash_command (.batch L) ++ RenderCommand.hashList [] = _
  rw [hash_command_batch]
  simp [RenderCommand.hashList, RenderCommand.content_hash]

/-- INDICES_PER_CELL from phaedra-gui/src/renderstate.rs. -/
def INDICES_PER_CELL : Nat := 6

/-- Modelled from the spec: VERTICES_PER_CELL is defined in the quad module,
which is not under src/; per the glossary a quad is four vertices. -/
def VERTICES_PER_CELL : Nat := 4

/-- The allocation-relevant state of a TripleVertexBuffer from
phaedra-gui/src/renderstate.rs: the shared bump cursor next_quad and the
fixed quad capacity.  The three rotating GPU buffers and the index buffer
carry no data the claims depend on. -/
structure TripleVertexBuffer where
  next_quad : Nat
  capacity : Nat
deriving DecidableEq, Repr

/-- QuadAllocator::allocate for MappedQuads from
phaedra-gui/src/renderstate.rs.  MappedQuads holds a RefMut view of the
TripleVertexBuffer's next_quad cursor together with its capacity, so the
allocation step is modelled directly on the buffer state: it returns the
quad index handed out (wrapped to zero at or beyond capacity) and the
state with the advanced cursor. -/
def MappedQuads.allocate (s : TripleVertexBuffer) : Nat × TripleVertexBuffer :=
  let idx := s.next_quad
  let idx := if idx ≥ s.capacity then 0 else idx
  (idx, { s with next_quad := s.next_quad + 1 })

/-- TripleVertexBuffer::clear_quad_allocation from renderstate.rs. -/
def TripleVertexBuffer.clear_quad_allocation (s : TripleVertexBuffer) :
    TripleVertexBuffer :=
  { s with next_quad := 0 }

/-- TripleVertexBuffer::need_more_quads from renderstate.rs. -/
def TripleVertexBuffer.need_more_quads (s : TripleVertexBuffer) : Option Nat :=
  if s.next_quad > s.capacity then some s.next_quad else none

/-- TripleVertexBuffer::vertex_index_count from renderstate.rs. -/
def TripleVertexBuffer.vertex_index_count (s : TripleVertexBuffer) : Nat × Nat :=
  (s.next_quad * VERTICES_PER_CELL, s.next_quad * INDICES_PER_CELL)

/-- Modelled from the spec: TripleVertexBuffer::current_quad_count is not
under src/ (only its caller snapshot_layers is); per the data model a
LayerQuadSnapshot records the slot's bump cursor at a point in time. -/
def TripleVertexBuffer.current_quad_count (s : TripleVertexBuffer) : Nat :=
  s.next_quad

/-- Modelled from the spec: TripleVertexBuffer::advance_quad_count is not
under src/ (only its caller advance_quad_counts_for_range is); per §4.5 a
skipped section advances the bump cursor by the recorded quad delta so the
arena cursor accounts for the replayed quads. -/
def TripleVertexBuffer.advance_quad_count (s : TripleVertexBuffer) (delta : Nat) :
    TripleVertexBuffer :=
  { s with next_quad := s.next_quad + delta }

/-- RenderLayer from renderstate.rs: a zindex (i8, embedded as Int; the
model performs only comparisons on it) and three slots. -/
structure RenderLayer where
  zindex : Int
  vb : List TripleVertexBuffer
deriving DecidableEq, Repr

/-- RenderLayer::new: slots of capacity 32, num_quads, 32 with cursors at
zero (compute_vertices starts next_quad at 0). -/
def RenderLayer.new (num_quads : Nat) (zindex : Int) : RenderLayer :=
  { zindex := zindex
    vb := [{ next_quad := 0, capacity := 32 },
           { next_quad := 0, capacity := num_quads },
           { next_quad := 0, capacity := 32 }] }

/-- RenderLayer::clear_quad_allocation: reset every slot's cursor. -/
def RenderLayer.clear_quad_allocation (l : RenderLayer) : RenderLayer :=
  { l with vb := l.vb.map TripleVertexBuffer.clear_quad_allocation }

/-- The layer-arena portion of RenderState from renderstate.rs (glyph cache
and GPU context are external collaborators). -/
structure RenderState where
  layers : List RenderLayer
deriving DecidableEq, Repr

/-- RenderState::new: a single main layer of capacity 1024 at zindex 0. -/
def RenderState.new : RenderState :=
  { layers := [RenderLayer.new 1024 0] }

/-- Rounding of a needed quad count as computed by
RenderState::allocated_more_quads in renderstate.rs:
(need_quads + 127) & !127 on usize, embedded with an explicit wrap of the
addition at 2 ^ 64. -/
def round_up_quads (need_quads : Nat) : Nat :=
  ((need_quads + 127) % 2 ^ 64) &&& (2 ^ 64 - 128)

/-- RenderLayer::reallocate_quads from renderstate.rs: replace the slot by
a fresh TripleVertexBuffer of the given capacity (compute_vertices resets
the cursor to zero). -/
def RenderLayer.reallocate_quads (l : RenderLayer) (idx : Nat) (num_quads : Nat) :
    RenderLayer :=
  { l with vb := l.vb.set idx { next_quad := 0, capacity := num_quads } }

/-- RenderState::allocated_more_quads from renderstate.rs: every slot whose
cursor exceeded its capacity is reallocated at the rounded-up capacity; the
Bool is true iff some slot was reallocated.  GPU allocation failure is an
external error and is abstracted away. -/
def RenderState.allocated_more_quads (rs : RenderState) : Bool × RenderState :=
  ((rs.layers.any fun l => l.vb.any fun s => s.need_more_quads.isSome),
   { layers := rs.layers.map fun l =>
      { l with vb := l.vb.map fun s =>
          match s.need_more_quads with
          | some need_quads => { next_quad := 0, capacity := round_up_quads need_quads }
          | none => s } })

/-- Helper: masking with !127 on u64 floors to a multiple of 128. -/
theorem land_mask_128 (x : Nat) (hx : x < 2 ^ 64) :
    x &&& (2 ^ 64 - 128) = x / 128 * 128 := by
  have hrw : x / 128 * 128 = (x >>> 7) <<< 7 := by
    rw [Nat.shiftRight_eq_div_pow, Nat.shiftLeft_eq]
  have hmask : (2 ^ 64 - 128 : Nat) = (2 ^ 57 - 1) <<< 7 := by
    rw [Nat.shiftLeft_eq]; norm_num
  rw [hrw, hmask]
  apply Nat.eq_of_testBit_eq
  intro i
  rw [Nat.testBit_land, Nat.testBit_shiftLeft, Nat.testBit_shiftLeft,
    Nat.testBit_shiftRight, Nat.testBit_two_pow_sub_one]
  rcases lt_or_le i 7 with h7 | h7
  · simp [Nat.not_le.mpr h7]
  · rcases lt_or_le i 64 with h64 | h64
    · have hadd : 7 + (i - 7) = i := by omega
      simp [h7, hadd, show i - 7 < 57 by omega]
    · have hx1 : x.testBit i = false :=
        Nat.testBit_eq_false_of_lt (lt_of_lt_of_le hx (Nat.pow_le_pow_right (by norm_num) h64))
      have hadd : 7 + (i - 7) = i := by omega
      simp [h7, hadd, hx1, show ¬ (i - 7 < 57) by omega]

/-- Helper: without overflow, round_up_quads is the least multiple of 128
at or above the needed count. -/
theorem round_up_quads_eq (n : Nat) (h : n + 127 < 2 ^ 64) :
    round_up_quads n = (n + 127) / 128 * 128 ∧
      128 ∣ round_up_quads n ∧ n ≤ round_up_quads n ∧
      ∀ m : Nat, 128 ∣ m → n ≤ m → round_up_quads n ≤ m := by
  have heq : round_up_quads n = (n + 127) / 128 * 128 := by
    unfold round_up_quads
    rw [Nat.mod_eq_of_lt h]
    exact land_mask_128 (n + 127) h
  refine ⟨heq, ?_, ?_, ?_⟩
  · rw [heq]; exact ⟨(n + 127) / 128, by ring⟩
  · rw [heq]; omega
  · intro m hdvd hle
    rcases hdvd with ⟨k, hk⟩
    rw [heq, hk]
    have : (n + 127) / 128 ≤ k := by omega
    omega

/-- C3: allocation past capacity is safe.  Allocate always advances the
cursor by one; the returned quad index is zero once the cursor is at or
beyond capacity and is always within capacity; after the pass,
need_more_quads returns some n with n the final cursor exactly when the
cursor exceeds capacity, and none otherwise. -/
theorem mapped_quads_allocate_overflow_safe
    (s : TripleVertexBuffer) (hcap : 0 < s.capacity) :
    ((MappedQuads.allocate s).2.next_quad = s.next_quad + 1) ∧
    (s.capacity ≤ s.next_quad → (MappedQuads.allocate s).1 = 0) ∧
    ((MappedQuads.allocate s).1 < s.capacity) ∧
    (∀ n : Nat, s.need_more_quads = some n ↔
      (s.capacity < s.next_quad ∧ n = s.next_quad)) ∧
    (s.need_more_quads = none ↔ s.next_quad ≤ s.capacity) := by
  refine ⟨rfl, ?_, ?_, ?_, ?_⟩
  · intro h
    simp [MappedQuads.allocate, Nat.le_of_lt, h]
  · by_cases h : s.capacity ≤ s.next_quad
    · simp [MappedQuads.allocate, h, hcap]
    · simp only [MappedQuads.allocate, ge_iff_le, if_neg h]
      omega
  · intro n
    unfold TripleVertexBuffer.need_more_quads
    by_cases h : s.capacity < s.next_quad <;> simp [h] <;> omega
  · unfold TripleVertexBuffer.need_more_quads
    by_cases h : s.capacity < s.next_quad <;> simp [h] <;> omega

/-- C3 witness: a slot of capacity 2 whose cursor is already at 3. -/
theorem mapped_quads_allocate_overflow_safe_witness :
    (MappedQuads.allocate ⟨3, 2⟩).2.next_quad = 4 ∧
      (MappedQuads.allocate ⟨3, 2⟩).1 = 0 ∧
      TripleVertexBuffer.need_more_quads ⟨3, 2⟩ = some 3 := by
  have h := mapped_quads_allocate_overflow_safe ⟨3, 2⟩ (by decide)
  exact ⟨h.1, h.2.1 (by decide), ((h.2.2.2.1 3).mpr (by exact ⟨by decide, rfl⟩))⟩

/-- C9: every slot whose post-pass cursor exceeds its capacity is rebuilt
with capacity the least multiple of 128 at or above the cursor (computed
as (n + 127) & !127), slots within capacity are untouched, and the Bool
result is true exactly when at least one slot was reallocated. -/
theorem allocated_more_quads_spec
    (rs : RenderState) (i j : Nat) (s : TripleVertexBuffer)
    (hs : (rs.layers[i]? >>= fun l => l.vb[j]?) = some s)
    (hbound : s.next_quad + 127 < 2 ^ 64) :
    ((rs.allocated_more_quads.2.layers[i]? >>= fun l => l.vb[j]?) =
      some (if s.capacity < s.next_quad
            then { next_quad := 0, capacity := round_up_quads s.next_quad }
            else s)) ∧
    (s.capacity < s.next_quad →
      128 ∣ round_up_quads s.next_quad ∧
      s.next_quad ≤ round_up_quads s.next_quad ∧
      ∀ m : Nat, 128 ∣ m → s.next_quad ≤ m → round_up_quads s.next_quad ≤ m) ∧
    (rs.allocated_more_quads.1 = true ↔
      ∃ l ∈ rs.layers, ∃ t ∈ l.vb, t.capacity < t.next_quad) := by
  refine ⟨?_, ?_, ?_⟩
  · rcases hl : rs.layers[i]? with _ | l
    · rw [hl] at hs; simp at hs
    · rw [hl] at hs
      have hs2 : l.vb[j]? = some s := hs
      have hmap : rs.allocated_more_quads.2.layers = rs.layers.map fun l =>
          { l with vb := l.vb.map fun s =>
              match s.need_more_quads with
              | some need_quads =>
                { next_quad := 0, capacity := round_up_quads need_quads }
              | none => s } := rfl
      rw [hmap, List.getElem?_map, hl, Option.map_some']
      show (List.map _ l.vb)[j]? = _
      rw [List.getElem?_map, hs2, Option.map_some']
      unfold TripleVertexBuffer.need_more_quads
      by_cases h : s.capacity < s.next_quad
      · rw [if_pos h, if_pos h]
      · rw [if_neg h, if_neg h]
  · intro h
    have := round_up_quads_eq s.next_quad hbound
    exact ⟨this.2.1, this.2.2.1, this.2.2.2⟩
  · have hany : rs.allocated_more_quads.1 =
        (rs.layers.any fun l => l.vb.any fun s => s.need_more_quads.isSome) := rfl
    rw [hany]
    simp only [List.any_eq_true]
    constructor
    · rintro ⟨l, hl, t, ht, hgt⟩
      refine ⟨l, hl, t, ht, ?_⟩
      by_contra hc
      simp [TripleVertexBuffer.need_more_quads, hc] at hgt
    · rintro ⟨l, hl, t, ht, hgt⟩
      exact ⟨l, hl, t, ht, by simp [TripleVertexBuffer.need_more_quads, hgt]⟩

/-- C9 witness: one layer with one overflowing slot (cursor 130, capacity
128) and the rounded capacity 256. -/
theorem allocated_more_quads_spec_witness :
    ((RenderState.mk [RenderLayer.mk 0 [⟨130, 128⟩]]).allocated_more_quads.2.layers[0]? >>=
        fun l => l.vb[0]?) = some ⟨0, round_up_quads 130⟩ ∧
      128 ∣ round_up_quads 130 ∧
      (RenderState.mk [RenderLayer.mk 0 [⟨130, 128⟩]]).allocated_more_quads.1 = true := by
  have h := allocated_more_quads_spec (RenderState.mk [RenderLayer.mk 0 [⟨130, 128⟩]])
    0 0 ⟨130, 128⟩ (by decide) (by norm_num)
  refine ⟨?_, (h.2.1 (by decide)).1, ?_⟩
  · have h1 := h.1
    rw [if_pos (by decide : (⟨130, 128⟩ : TripleVertexBuffer).capacity <
      (⟨130, 128⟩ : TripleVertexBuffer).next_quad)] at h1
    exact h1
  · exact h.2.2.mpr ⟨_, List.mem_cons_self _ _, ⟨130, 128⟩, by decide, by decide⟩

/-- LayerQuadSnapshot from phaedra-gui/src/render_plan.rs. -/
structure LayerQuadSnapshot where
  zindex : Int
  sub_idx : Nat
  quad_count : Nat
deriving DecidableEq, Repr

/-- QuadRange from render_plan.rs.  The source field named end is called
stop here because end is reserved in Lean. -/
structure QuadRange where
  start : List LayerQuadSnapshot
  stop : List LayerQuadSnapshot
deriving DecidableEq, Repr

/-- ExecutionStats from render_plan.rs. -/
structure ExecutionStats where
  quads_emitted : Nat
  fills_emitted : Nat
  draws_emitted : Nat
  overdraw_positions : Nat
deriving DecidableEq, Repr

/-- SectionOutcome from render_plan.rs. -/
inductive SectionOutcome where
  | skipped
  | executed (stats : ExecutionStats)
deriving DecidableEq, Repr

/-- CofreeContext from render_plan.rs: the running per-pass aggregate
statistics. -/
structure CofreeContext where
  total_quads_emitted : Nat
  sections_processed : Nat
  sections_skipped : Nat
  skip_streak : Nat
  prior_outcomes : List SectionOutcome
deriving DecidableEq, Repr

/-- CofreeContext::new. -/
def CofreeContext.new : CofreeContext :=
  { total_quads_emitted := 0
    sections_processed := 0
    sections_skipped := 0
    skip_streak := 0
    prior_outcomes := [] }

/-- CofreeContext::advance from render_plan.rs. -/
def CofreeContext.advance (c : CofreeContext) (outcome : SectionOutcome) :
    CofreeContext :=
  let c := { c with sections_processed := c.sections_processed + 1 }
  let c :=
    match outcome with
    | .skipped =>
      { c with sections_skipped := c.sections_skipped + 1
               skip_streak := c.skip_streak + 1 }
    | .executed stats =>
      { c with total_quads_emitted := c.total_quads_emitted + stats.quads_emitted
               skip_streak := 0 }
  { c with prior_outcomes := c.prior_outcomes ++ [outcome] }

/-- CofreeContext::skip_rate from render_plan.rs (f64 division embedded as
exact rational division). -/
def CofreeContext.skip_rate (c : CofreeContext) : ℚ :=
  if c.sections_processed = 0 then 0
  else (c.sections_skipped : ℚ) / (c.sections_processed : ℚ)

/-- ScissorRect from render_plan.rs. -/
structure ScissorRect where
  x : Nat
  y : Nat
  width : Nat
  height : Nat
deriving DecidableEq, Repr

/-- The Rust `as u32` cast from f32, embedded on rationals: truncation
toward zero with saturation at the u32 range. -/
def ratToU32 (q : ℚ) : Nat :=
  min (Int.toNat ⌊q⌋) (2 ^ 32 - 1)

/-- ScissorRect::from_pane_bounds from render_plan.rs: clamp the pane
bounds to the viewport with saturating casts and saturating subtraction. -/
def ScissorRect.from_pane_bounds (bounds : RectQ)
    (viewport_width viewport_height : Nat) : ScissorRect :=
  let x := ratToU32 (max bounds.x 0)
  let y := ratToU32 (max bounds.y 0)
  let right := ratToU32 (min (bounds.x + bounds.width) (viewport_width : ℚ))
  let bottom := ratToU32 (min (bounds.y + bounds.height) (viewport_height : ℚ))
  { x := x, y := y, width := right - x, height := bottom - y }

/-- RenderSection from render_plan.rs; the content fingerprint is an
opaque 64-bit value, embedded as Nat. -/
structure RenderSection where
  scissor : Option ScissorRect
  content_hash : Nat
  quad_range : QuadRange
  skippable : Bool
  stats : Option ExecutionStats
deriving DecidableEq, Repr

/-- RenderPlan from render_plan.rs. -/
structure RenderPlan where
  sections : List RenderSection
  viewport_width : Nat
  viewport_height : Nat
deriving DecidableEq, Repr

/-- RenderPlan::new. -/
def RenderPlan.new (width height : Nat) : RenderPlan :=
  { sections := [], viewport_width := width, viewport_height := height }

/-- RenderPlan::pane_section_count: sections with a scissor are exactly the
pane sections. -/
def RenderPlan.pane_section_count (p : RenderPlan) : Nat :=
  (p.sections.filter fun sec => sec.scissor.isSome).length

/-- RenderPlan::skippable_pane_section_count. -/
def RenderPlan.skippable_pane_section_count (p : RenderPlan) : Nat :=
  (p.sections.filter fun sec =>
    sec.scissor.isSome && sec.skippable).length

/-- quad_count_for_snapshot from render_plan.rs: the recorded count for a
(zindex, sub_idx), zero when the pair is absent. -/
def quad_count_for_snapshot (snapshots : List LayerQuadSnapshot)
    (zindex : Int) (sub_idx : Nat) : Nat :=
  ((snapshots.find? fun snapshot =>
      snapshot.zindex == zindex && snapshot.sub_idx == sub_idx).map
    fun snapshot => snapshot.quad_count).getD 0

/-- snapshot_layers from render_plan.rs: every live layer contributes its
three slots' cursors in order. -/
def snapshot_layers (rs : RenderState) : List LayerQuadSnapshot :=
  rs.layers.flatMap fun layer =>
    (List.range 3).map fun sub_idx =>
      { zindex := layer.zindex
        sub_idx := sub_idx
        quad_count := (layer.vb.getD sub_idx ⟨0, 0⟩).current_quad_count }

/-- Modelled from the spec: struct FrameBuffers is not under src/ (only its
callers in paint.rs and draw.rs are).  Per the Continuity Store data model
it retains last frame's per-(depth, slot) GPU buffer plus the list of
QuadRanges by section index; a buffer is modelled by the presence of its
(zindex, sub_idx) key, since the claims depend only on residency. -/
structure FrameBuffers where
  buffers : List (Int × Nat)
  section_ranges : List QuadRange
deriving DecidableEq, Repr

/-- Modelled from the spec: FrameBuffers::default starts empty. -/
def FrameBuffers.empty : FrameBuffers :=
  { buffers := [], section_ranges := [] }

/-- Modelled from the spec: FrameBuffers::buffer(zindex, sub_idx) is not
under src/; it returns the retained buffer for that (depth, slot) when one
is present. -/
def FrameBuffers.buffer (f : FrameBuffers) (zindex : Int) (sub_idx : Nat) :
    Option Unit :=
  if f.buffers.any fun b => b.1 == zindex && b.2 == sub_idx then some ()
  else none

/-- INDICES_PER_QUAD from phaedra-gui/src/termwindow/render/draw.rs. -/
def INDICES_PER_QUAD : Nat := 6

/-- quad_range_for_section from draw.rs: the (start, end) quad window of a
recorded range for one (zindex, sub_idx), when its delta is positive. -/
def quad_range_for_section (range : QuadRange) (zindex : Int) (sub_idx : Nat) :
    Option (Nat × Nat) :=
  let start_quad := quad_count_for_snapshot range.start zindex sub_idx
  let end_quad := quad_count_for_snapshot range.stop zindex sub_idx
  if start_quad < end_quad then some (start_quad, end_quad) else none

/-- Modelled from the spec: FrameBuffers::section_quad_range is not under
src/ (only its caller draw_layer_sections is); per §4.5 it looks up the
stored QuadRange at the section index and returns the quad window for the
(depth, slot). -/
def FrameBuffers.section_quad_range (f : FrameBuffers) (section_idx : Nat)
    (zindex : Int) (sub_idx : Nat) : Option (Nat × Nat) :=
  match f.section_ranges[section_idx]? with
  | some range => quad_range_for_section range zindex sub_idx
  | none => none

/-- frame_has_buffers_for_range from paint.rs: every (zindex, sub_idx) with
a positive recorded delta must still have a retained buffer. -/
def frame_has_buffers_for_range (frame : FrameBuffers) (quad_range : QuadRange) :
    Bool :=
  quad_range.stop.all fun end_snapshot =>
    let start_quad := quad_count_for_snapshot quad_range.start
      end_snapshot.zindex end_snapshot.sub_idx
    decide (end_snapshot.quad_count ≤ start_quad) ||
      (frame.buffer end_snapshot.zindex end_snapshot.sub_idx).isSome

/-- Replace the first layer with the given zindex (the unique one under the
layer invariant), leaving the rest unchanged; models mutation through the
Rc handle returned by layer_for_zindex. -/
def updateLayer (layers : List RenderLayer) (zindex : Int)
    (f : RenderLayer → RenderLayer) : List RenderLayer :=
  match layers with
  | [] => []
  | l :: rest =>
    if l.zindex = zindex then f l :: rest
    else l :: updateLayer rest zindex f

/-- Replace the element at an index, leaving the list unchanged when out of
range; models indexing into the vb array. -/
def listModify {α : Type} (xs : List α) (i : Nat) (f : α → α) : List α :=
  match xs, i with
  | [], _ => []
  | x :: rest, 0 => f x :: rest
  | x :: rest, Nat.succ n => x :: listModify rest n f

/-- RenderState::layer_for_zindex from renderstate.rs: return the state
with a layer for the zindex present, creating one of default capacity 128
and re-sorting by zindex when absent.  The returned Rc handle is modelled
by addressing the layer through its zindex in subsequent operations. -/
def RenderState.layer_for_zindex (rs : RenderState) (zindex : Int) : RenderState :=
  if rs.layers.any fun l => l.zindex == zindex then rs
  else
    { layers := (rs.layers ++ [RenderLayer.new 128 zindex]).mergeSort
        fun a b => decide (a.zindex ≤ b.zindex) }

/-- Apply a slot-level mutation to the (zindex, sub_idx) slot. -/
def RenderState.modify_slot (rs : RenderState) (zindex : Int) (sub_idx : Nat)
    (f : TripleVertexBuffer → TripleVertexBuffer) : RenderState :=
  { layers := updateLayer rs.layers zindex fun l =>
      { l with vb := listModify l.vb sub_idx f } }

/-- One iteration of advance_quad_counts_for_range (paint.rs): skip end
snapshots without a positive delta, otherwise resolve the layer (creating
it when absent) and advance the slot cursor by the delta. -/
def advance_step (start : List LayerQuadSnapshot) (rs : RenderState)
    (end_snapshot : LayerQuadSnapshot) : RenderState :=
  let start_quad := quad_count_for_snapshot start
    end_snapshot.zindex end_snapshot.sub_idx
  if end_snapshot.quad_count ≤ start_quad then rs
  else
    let quad_delta := end_snapshot.quad_count - start_quad
    (rs.layer_for_zindex end_snapshot.zindex).modify_slot
      end_snapshot.zindex end_snapshot.sub_idx
      fun s => s.advance_quad_count quad_delta

/-- advance_quad_counts_for_range from paint.rs: for every end snapshot with
a positive delta over the range start, resolve the layer (creating it when
absent) and advance the slot cursor by the delta. -/
def advance_quad_counts_for_range (rs : RenderState) (quad_range : QuadRange) :
    RenderState :=
  quad_range.stop.foldl (advance_step quad_range.start) rs

mutual

/-- execute_command from phaedra-gui/src/execute_render.rs, restricted to
its effect on the layer arena: control commands emit nothing, batches
execute their children in order, FillRect and DrawQuad resolve their layer
(creating it when absent) and bump-allocate one quad in slot layer of that
layer.  The vertex attribute writes go to GPU memory and do not affect the
arena state the claims depend on. -/
def execute_command (rs : RenderState) (cmd : RenderCommand) : RenderState :=
  match cmd with
  | .clear _ => rs
  | .setClipRect _ => rs
  | .beginPostProcess => rs
  | .nop => rs
  | .batch cmds => execute_commands cmds rs
  | .fillRect layer zindex _ _ _ =>
    (rs.layer_for_zindex zindex).modify_slot zindex layer
      fun s => { s with next_quad := s.next_quad + 1 }
  | .drawQuad layer zindex _ _ _ _ _ _ =>
    (rs.layer_for_zindex zindex).modify_slot zindex layer
      fun s => { s with next_quad := s.next_quad + 1 }

/-- execute_commands from execute_render.rs. -/
def execute_commands (commands : List RenderCommand) (rs : RenderState) :
    RenderState :=
  match commands with
  | [] => rs
  | c :: rest => execute_commands rest (execute_command rs c)

end

/-- ExecutionHistory from execute_render.rs; the position set is the list
of distinct position fingerprints seen so far. -/
structure ExecutionHistory where
  quads_emitted : Nat
  fills_emitted : Nat
  draws_emitted : Nat
  overdraw_positions : Nat
  position_set : List (ℚ × ℚ × ℚ × ℚ)
deriving DecidableEq, Repr

/-- ExecutionHistory::new. -/
def ExecutionHistory.new : ExecutionHistory :=
  { quads_emitted := 0
    fills_emitted := 0
    draws_emitted := 0
    overdraw_positions := 0
    position_set := [] }

/-- ExecutionHistory::stats. -/
def ExecutionHistory.stats (h : ExecutionHistory) : ExecutionStats :=
  { quads_emitted := h.quads_emitted
    fills_emitted := h.fills_emitted
    draws_emitted := h.draws_emitted
    overdraw_positions := h.overdraw_positions }

/-- ExecutionHistory::mark_position: repeated positions count as overdraw;
the set insert of an already present fingerprint leaves the set unchanged. -/
def ExecutionHistory.mark_position (h : ExecutionHistory)
    (position : ℚ × ℚ × ℚ × ℚ) : ExecutionHistory :=
  if h.position_set.contains position then
    { h with overdraw_positions := h.overdraw_positions + 1 }
  else
    { h with position_set := h.position_set ++ [position] }

mutual

/-- execute_command_with_history from execute_render.rs: FillRect and
DrawQuad record their viewport-offset position fingerprint, execute, and
count one quad; other commands execute without history. -/
def execute_command_with_history (rs : RenderState) (history : ExecutionHistory)
    (left_offset top_offset : ℚ) (cmd : RenderCommand) :
    RenderState × ExecutionHistory :=
  match cmd with
  | .batch cmds =>
    execute_commands_with_history_mut cmds rs history left_offset top_offset
  | .fillRect layer zindex rect color hsv =>
    let history := history.mark_position
      (rect.x - left_offset, rect.y - top_offset,
        rect.x + rect.width - left_offset, rect.y + rect.height - top_offset)
    let rs := execute_command rs (.fillRect layer zindex rect color hsv)
    (rs, { history with fills_emitted := history.fills_emitted + 1
                        quads_emitted := history.quads_emitted + 1 })
  | .drawQuad layer zindex position texture fg alt hsv mode =>
    let history := history.mark_position
      (position.x - left_offset, position.y - top_offset,
        position.x + position.width - left_offset,
        position.y + position.height - top_offset)
    let rs := execute_command rs (.drawQuad layer zindex position texture fg alt hsv mode)
    (rs, { history with draws_emitted := history.draws_emitted + 1
                        quads_emitted := history.quads_emitted + 1 })
  | other => (execute_command rs other, history)

/-- execute_commands_with_history_mut from execute_render.rs. -/
def execute_commands_with_history_mut (commands : List RenderCommand)
    (rs : RenderState) (history : ExecutionHistory)
    (left_offset top_offset : ℚ) : RenderState × ExecutionHistory :=
  match commands with
  | [] => (rs, history)
  | c :: rest =>
    let r := execute_command_with_history rs history left_offset top_offset c
    execute_commands_with_history_mut rest r.1 r.2 left_offset top_offset

end

/-- execute_commands_with_history from execute_render.rs: run with a fresh
history. -/
def execute_commands_with_history (commands : List RenderCommand)
    (rs : RenderState) (left_offset top_offset : ℚ) :
    RenderState × ExecutionHistory :=
  execute_commands_with_history_mut commands rs ExecutionHistory.new
    left_offset top_offset

/-- PaneFrame from phaedra-gui/src/frame.rs (ui_items omitted: they do not
affect the pipeline state). -/
structure PaneFrame where
  pane_id : Nat
  is_active : Bool
  bounds : RectQ
  command_hash : Nat
  cache_key : Nat
  commands : List RenderCommand
  last_execution_stats : Option ExecutionStats
  skip_streak : Nat
deriving Repr

/-- What the external Frame Describer produces for one visible pane this
frame: the cache key computed by pane_describe_cache_key, and the PaneFrame
describe_pane_with_snapshot would return were the pane re-described. -/
structure PaneDescribe where
  pane_id : Nat
  cache_key : Nat
  describe : PaneFrame
deriving Repr

/-- The per-frame input consumed by paint_pass from the external Frame
Describer: background commands, the visible panes, and the chrome command
lists (tab bar, splits, borders, modal) concatenated in execution order. -/
structure FrameInput where
  background : List RenderCommand
  panes : List PaneDescribe
  chrome : List RenderCommand
deriving Repr

/-- The TermWindow state the render pipeline reads and writes across
frames. -/
structure TermWindow where
  render_state : RenderState
  prev_frame_buffers : Option FrameBuffers
  prev_pane_frames : List (Nat × PaneFrame)
  render_plan : Option RenderPlan
  pixel_width : ℚ
  pixel_height : ℚ
deriving Repr

/-- The accumulator of the per-pane loop inside paint_pass. -/
structure PaneAcc where
  rs : RenderState
  sections : List RenderSection
  chain_valid : Bool
  cofree : CofreeContext
  new_frames : List (Nat × PaneFrame)
deriving Repr

/-- The candidate-skippability decision of the pane loop (paint.rs): when a
prior cache entry exists with the same cache key, reuse the cached
PaneFrame with an incremented skip streak, otherwise take the freshly
described frame.  The Bool is the candidate_skippable flag. -/
def pane_candidate (prev_pane_frames : List (Nat × PaneFrame))
    (pane : PaneDescribe) : PaneFrame × Bool :=
  match prev_pane_frames.lookup pane.pane_id with
  | some cached =>
    if cached.cache_key == pane.cache_key then
      ({ cached with skip_streak := cached.skip_streak + 1 }, true)
    else (pane.describe, false)
  | none => (pane.describe, false)

/-- The Continuity Store validation of the pane loop (paint.rs): a
candidate pane in a still-valid skip chain takes the previous frame's
recorded range at this section index, provided buffers are still held for
every positive delta of that range. -/
def pane_prior_quad_range (previous_frame : Option FrameBuffers)
    (section_count : Nat) (candidate_skippable chain_valid : Bool) :
    Option QuadRange :=
  if candidate_skippable && chain_valid then
    match previous_frame with
    | some frame =>
      match frame.section_ranges[section_count]? with
      | some range =>
        if frame_has_buffers_for_range frame range then some range else none
      | none => none
    | none => none
  else none

/-- The execute-or-skip step of the pane loop (paint.rs): replay the
recorded range, or execute the described commands with history and reset
the skip streak. -/
def pane_execute (rs : RenderState) (left_offset top_offset : ℚ)
    (pane_frame : PaneFrame) (prior_quad_range : Option QuadRange) :
    RenderState × SectionOutcome × PaneFrame :=
  match prior_quad_range with
  | some range =>
    (advance_quad_counts_for_range rs range, .skipped, pane_frame)
  | none =>
    let res := execute_commands_with_history pane_frame.commands rs
      left_offset top_offset
    let stats := res.2.stats
    (res.1, .executed stats,
      { pane_frame with last_execution_stats := some stats, skip_streak := 0 })

/-- The RenderSection appended for one pane of the pane loop. -/
def process_section (prev_pane_frames : List (Nat × PaneFrame))
    (previous_frame : Option FrameBuffers)
    (viewport_width viewport_height : Nat) (left_offset top_offset : ℚ)
    (acc : PaneAcc) (pane : PaneDescribe) : RenderSection :=
  let cand := pane_candidate prev_pane_frames pane
  let prior_quad_range := pane_prior_quad_range previous_frame
    acc.sections.length cand.2 acc.chain_valid
  let pane_start := snapshot_layers acc.rs
  let step := pane_execute acc.rs left_offset top_offset cand.1 prior_quad_range
  let pane_end := snapshot_layers step.1
  { scissor := some (ScissorRect.from_pane_bounds step.2.2.bounds
      viewport_width viewport_height)
    content_hash := step.2.2.command_hash
    quad_range := { start := pane_start, stop := pane_end }
    skippable := prior_quad_range.isSome
    stats := step.2.2.last_execution_stats }

/-- One iteration of the pane loop of paint_pass (paint.rs): decide
candidate skippability from the cache key, validate the prior quad range
against the Continuity Store, then either replay the recorded range or
execute the described commands, snapshotting around the section. -/
def process_pane (prev_pane_frames : List (Nat × PaneFrame))
    (previous_frame : Option FrameBuffers)
    (viewport_width viewport_height : Nat) (left_offset top_offset : ℚ)
    (acc : PaneAcc) (pane : PaneDescribe) : PaneAcc :=
  let cand := pane_candidate prev_pane_frames pane
  let prior_quad_range := pane_prior_quad_range previous_frame
    acc.sections.length cand.2 acc.chain_valid
  let pane_start := snapshot_layers acc.rs
  let step := pane_execute acc.rs left_offset top_offset cand.1 prior_quad_range
  let pane_end := snapshot_layers step.1
  let skippable := prior_quad_range.isSome
  let sec : RenderSection :=
    { scissor := some (ScissorRect.from_pane_bounds step.2.2.bounds
        viewport_width viewport_height)
      content_hash := step.2.2.command_hash
      quad_range := { start := pane_start, stop := pane_end }
      skippable := skippable
      stats := step.2.2.last_execution_stats }
  { rs := step.1
    sections := acc.sections ++ [sec]
    chain_valid := if skippable then acc.chain_valid else false
    cofree := acc.cofree.advance step.2.1
    new_frames := acc.new_frames ++ [(pane.pane_id, step.2.2)] }

/-- The viewport width paint_pass derives from the window dimensions. -/
def paint_vw (tw : TermWindow) : Nat := ratToU32 (max tw.pixel_width 0)

/-- The viewport height paint_pass derives from the window dimensions. -/
def paint_vh (tw : TermWindow) : Nat := ratToU32 (max tw.pixel_height 0)

/-- The horizontal viewport-centering offset of paint_pass. -/
def paint_left_offset (tw : TermWindow) : ℚ := tw.pixel_width / 2

/-- The vertical viewport-centering offset of paint_pass. -/
def paint_top_offset (tw : TermWindow) : ℚ := tw.pixel_height / 2

/-- The arena after the initial clear_quad_allocation of paint_pass. -/
def paint_cleared (tw : TermWindow) : RenderState :=
  { layers := tw.render_state.layers.map RenderLayer.clear_quad_allocation }

/-- The arena after the background commands of the frame are executed. -/
def paint_background_rs (tw : TermWindow) (inp : FrameInput) : RenderState :=
  execute_commands inp.background (paint_cleared tw)

/-- The background RenderSection of paint_pass: no scissor, hash 0, never
skippable. -/
def paint_background_section (tw : TermWindow) (inp : FrameInput) :
    RenderSection :=
  { scissor := none
    content_hash := 0
    quad_range := { start := snapshot_layers (paint_cleared tw)
                    stop := snapshot_layers (paint_background_rs tw inp) }
    skippable := false
    stats := none }

/-- The pane-loop accumulator of paint_pass before the first pane. -/
def paint_acc0 (tw : TermWindow) (inp : FrameInput) : PaneAcc :=
  { rs := paint_background_rs tw inp
    sections := [paint_background_section tw inp]
    chain_valid := true
    cofree := CofreeContext.new
    new_frames := [] }

/-- The pane-loop accumulator of paint_pass after all panes. -/
def paint_panes_acc (tw : TermWindow) (inp : FrameInput) : PaneAcc :=
  inp.panes.foldl
    (process_pane tw.prev_pane_frames tw.prev_frame_buffers
      (paint_vw tw) (paint_vh tw) (paint_left_offset tw) (paint_top_offset tw))
    (paint_acc0 tw inp)

/-- The arena after the chrome commands (tab bar, splits, borders, modal)
are executed. -/
def paint_chrome_rs (tw : TermWindow) (inp : FrameInput) : RenderState :=
  execute_commands inp.chrome (paint_panes_acc tw inp).rs

/-- The chrome RenderSection of paint_pass: no scissor, hash 0, never
skippable. -/
def paint_chrome_section (tw : TermWindow) (inp : FrameInput) : RenderSection :=
  { scissor := none
    content_hash := 0
    quad_range := { start := snapshot_layers (paint_panes_acc tw inp).rs
                    stop := snapshot_layers (paint_chrome_rs tw inp) }
    skippable := false
    stats := none }

/-- paint_pass from paint.rs, as a function of the frame input produced by
the external Frame Describer.  Clears the arena cursors, executes the
background, runs the pane loop with the section cache decision, executes
the chrome, and returns the updated window state together with the pass
CofreeContext (whose skip_rate is the recorded gui.chrono.skip_rate
metric).  GPU errors are external and abstracted away. -/
def paint_pass (tw : TermWindow) (inp : FrameInput) : TermWindow × CofreeContext :=
  ({ tw with
      render_state := paint_chrome_rs tw inp
      render_plan := some
        { sections := (paint_panes_acc tw inp).sections ++
            [paint_chrome_section tw inp]
          viewport_width := paint_vw tw
          viewport_height := paint_vh tw }
      prev_pane_frames := (paint_panes_acc tw inp).new_frames },
   (paint_panes_acc tw inp).cofree)

/-- The Continuity Store bookkeeping of call_draw_webgpu (draw.rs): after
drawing, the store is replaced with this frame's buffers (one per
(zindex, sub_idx) slot whose cursor is positive, i.e. whose vertex count
was nonzero) and the plan's section ranges in order. -/
def call_draw_update (tw : TermWindow) : TermWindow :=
  let next_buffers : List (Int × Nat) :=
    tw.render_state.layers.flatMap fun layer =>
      (List.range 3).filterMap fun idx =>
        if (layer.vb.getD idx ⟨0, 0⟩).vertex_index_count.1 > 0 then
          some (layer.zindex, idx)
        else none
  let section_ranges :=
    (match tw.render_plan with
     | some plan => plan.sections.map fun sec => sec.quad_range
     | none => [])
  { tw with
      prev_frame_buffers := some ({ buffers := next_buffers, section_ranges := section_ranges } : FrameBuffers) }

/-- One full frame as paint_impl drives it when no arena growth or texture
retry is needed: paint_pass followed by call_draw.  The returned
CofreeContext carries the frame's recorded statistics. -/
def frame_step (tw : TermWindow) (inp : FrameInput) : TermWindow × CofreeContext :=
  let r := paint_pass tw inp
  (call_draw_update r.1, r.2)

/-- The spec's end-to-end skip scenario: one visible pane whose content,
cache key and bounds never change across frames. -/
def steadyPaneFrame : PaneFrame :=
  { pane_id := 1
    is_active := true
    bounds := ⟨0, 0, 800, 600⟩
    command_hash := 7
    cache_key := 42
    commands := [.fillRect 1 0 ⟨0, 0, 10, 10⟩ ⟨1, 1, 1, 1⟩ none]
    last_execution_stats := none
    skip_streak := 0 }

/-- The unchanging frame input of the steady scenario. -/
def steadyFrameInput : FrameInput :=
  { background := [], panes := [⟨1, 42, steadyPaneFrame⟩], chrome := [] }

/-- A freshly created window: one main layer, empty Continuity Store. -/
def initialTermWindow : TermWindow :=
  { render_state := RenderState.new
    prev_frame_buffers := none
    prev_pane_frames := []
    render_plan := none
    pixel_width := 800
    pixel_height := 600 }

/-- Run n frames of the steady scenario, collecting each frame's recorded
CofreeContext. -/
def steadyRun : Nat → TermWindow × List CofreeContext
  | 0 => (initialTermWindow, [])
  | n + 1 =>
    let r := steadyRun n
    let st := frame_step r.1 steadyFrameInput
    (st.1, r.2 ++ [st.2])

/-- Helper: the five CofreeContexts recorded by the steady five-frame run,
computed by evaluation. -/
theorem steadyRun_five_cofree :
    (steadyRun 5).2 =
      [{ total_quads_emitted := 1, sections_processed := 1,
         sections_skipped := 0, skip_streak := 0,
         prior_outcomes := [.executed ⟨1, 1, 0, 0⟩] },
       { total_quads_emitted := 0, sections_processed := 1,
         sections_skipped := 1, skip_streak := 1,
         prior_outcomes := [.skipped] },
       { total_quads_emitted := 0, sections_processed := 1,
         sections_skipped := 1, skip_streak := 1,
         prior_outcomes := [.skipped] },
       { total_quads_emitted := 0, sections_processed := 1,
         sections_skipped := 1, skip_streak := 1,
         prior_outcomes := [.skipped] },
       { total_quads_emitted := 0, sections_processed := 1,
         sections_skipped := 1, skip_streak := 1,
         prior_outcomes := [.skipped] }] := by
  decide

/-- C7 counterexample: in the steady one-pane scenario the per-frame
outcomes are indeed one Executed followed by four Skipped, but the
skip_rate observable recorded after frame 5 is 1, not 0.8: the
CofreeContext is created afresh inside every paint_pass, so its skip rate
covers only that frame's single pane section. -/
theorem five_frame_skip_rate_counterexample :
    ((steadyRun 5).2.map fun c =>
        c.prior_outcomes.map fun o =>
          (match o with | .skipped => true | .executed _ => false)) =
      [[false], [true], [true], [true], [true]] ∧
    ((steadyRun 5).2.map fun c => c.skip_rate)[4]? = some 1 ∧
    ((steadyRun 5).2.map fun c => c.skip_rate)[4]? ≠ some (8 / 10 : ℚ) := by
  rw [steadyRun_five_cofree]
  refine ⟨rfl, ?_, ?_⟩
  · simp [CofreeContext.skip_rate]
  · simp [CofreeContext.skip_rate]
    norm_num

/-- C7 amended: over five steady frames the per-frame section outcomes are
exactly one Executed (frame 1) then four Skipped (frames 2 through 5); the
skip_rate recorded by frame 1 is 0 and by each of frames 2 through 5 is 1
(each pass's CofreeContext covers only that pass); the fraction of skipped
outcomes aggregated across the five frames is 0.8. -/
theorem five_frame_outcomes_amended :
    ((steadyRun 5).2.map fun c =>
        c.prior_outcomes.map fun o =>
          (match o with | .skipped => true | .executed _ => false)) =
      [[false], [true], [true], [true], [true]] ∧
    ((steadyRun 5).2.map fun c => c.skip_rate) = [0, 1, 1, 1, 1] ∧
    ((((steadyRun 5).2.map fun c => c.sections_skipped).sum : ℚ) /
      (((steadyRun 5).2.map fun c => c.sections_processed).sum : ℚ)) = 8 / 10 := by
  rw [steadyRun_five_cofree]
  refine ⟨rfl, ?_, ?_⟩
  · simp [CofreeContext.skip_rate]
  · norm_num

/-- The sections of the plan produced by paint_pass (paint_pass always
stores a plan). -/
def paint_sections (tw : TermWindow) (inp : FrameInput) : List RenderSection :=
  match (paint_pass tw inp).1.render_plan with
  | some plan => plan.sections
  | none => []

/-- The Continuity Store condition for the section at the given index: a
range is recorded there and buffers are still held for all its positive
deltas. -/
def continuity_holds_at (tw : TermWindow) (section_idx : Nat) : Bool :=
  match tw.prev_frame_buffers with
  | some frame =>
    match frame.section_ranges[section_idx]? with
    | some range => frame_has_buffers_for_range frame range
    | none => false
  | none => false

/-- First pane of the two-pane scenario, frame-1 content. -/
def paneOneV1 : PaneFrame :=
  { pane_id := 1
    is_active := true
    bounds := ⟨0, 0, 400, 600⟩
    command_hash := 100
    cache_key := 10
    commands := [.fillRect 1 0 ⟨0, 0, 10, 10⟩ ⟨1, 1, 1, 1⟩ none]
    last_execution_stats := none
    skip_streak := 0 }

/-- First pane with changed content on frame 2 (new cache key). -/
def paneOneV2 : PaneFrame :=
  { paneOneV1 with
      cache_key := 11
      command_hash := 101
      commands := [.fillRect 1 0 ⟨0, 0, 20, 20⟩ ⟨1, 1, 1, 1⟩ none] }

/-- Second pane, identical on both frames. -/
def paneTwo : PaneFrame :=
  { pane_id := 2
    is_active := false
    bounds := ⟨400, 0, 400, 600⟩
    command_hash := 200
    cache_key := 20
    commands := [.fillRect 1 0 ⟨400, 0, 10, 10⟩ ⟨1, 1, 1, 1⟩ none]
    last_execution_stats := none
    skip_streak := 0 }

/-- Frame-1 input of the two-pane scenario. -/
def twoPaneInputA : FrameInput :=
  { background := []
    panes := [⟨1, 10, paneOneV1⟩, ⟨2, 20, paneTwo⟩]
    chrome := [] }

/-- Frame-2 input: pane 1 changed, pane 2 identical. -/
def twoPaneInputB : FrameInput :=
  { background := []
    panes := [⟨1, 11, paneOneV2⟩, ⟨2, 20, paneTwo⟩]
    chrome := [] }

/-- The window state after frame 1 of the two-pane scenario. -/
def twoPaneTW : TermWindow := (frame_step initialTermWindow twoPaneInputA).1

/-- C5 counterexample: on frame 2 of the two-pane scenario, pane 2's cache
key is identical to the previous frame's entry (both 20) and the
Continuity Store still holds buffers for its recorded quad range at its
section index 2, yet pane 2's section is not skipped: pane 1 ahead of it
changed, the skip chain is broken, and pane 2 is fully executed (its
section's skippable flag is false and its outcome is Executed).  The claim
as stated omits the skip-chain condition. -/
theorem skip_requires_chain_counterexample :
    ((twoPaneTW.prev_pane_frames.lookup 2).map fun f => f.cache_key) = some 20 ∧
    ((twoPaneInputB.panes[1]?).map fun p => p.cache_key) = some 20 ∧
    continuity_holds_at twoPaneTW 2 = true ∧
    ((paint_sections twoPaneTW twoPaneInputB).map fun sec => sec.skippable) =
      [false, false, false, false] ∧
    ((paint_pass twoPaneTW twoPaneInputB).2.prior_outcomes.map fun o =>
        (match o with | .skipped => true | .executed _ => false)) =
      [false, false] := by
  refine ⟨by decide, by decide, by decide, by decide, by decide⟩

/-- The bump cursor of the (zindex, sub_idx) slot as the pipeline reads it:
taken from the first layer with that zindex (the unique one under the
layer invariant), zero when no such layer or slot exists. -/
def slot_next (rs : RenderState) (zindex : Int) (sub_idx : Nat) : Nat :=
  match rs.layers.find? fun l => l.zindex == zindex with
  | some l => (l.vb.getD sub_idx ⟨0, 0⟩).next_quad
  | none => 0

/-- Well-formedness of the layer arena: pairwise distinct zindices and
three slots per layer.  RenderState::new establishes it and every
operation preserves it. -/
def RenderState.wf (rs : RenderState) : Prop :=
  (rs.layers.map fun l => l.zindex).Nodup ∧ ∀ l ∈ rs.layers, l.vb.length = 3

/-- Helper: find? is the head of the filtered list. -/
theorem find?_eq_head?_filter {α : Type} (p : α → Bool) (l : List α) :
    l.find? p = (l.filter p).head? := by
  induction l with
  | nil => rfl
  | cons a t ih =>
    by_cases h : p a
    · rw [List.find?_cons_of_pos _ h, List.filter_cons_of_pos h, List.head?_cons]
    · rw [List.find?_cons_of_neg _ h, List.filter_cons_of_neg h, ih]

/-- Helper: permutations of lists of at most one element are equalities. -/
theorem perm_eq_of_length_le_one {α : Type} {l1 l2 : List α}
    (h : l1.Perm l2) (hl : l1.length ≤ 1) : l1 = l2 := by
  match l1, hl with
  | [], _ => exact (h.nil_eq).symm ▸ rfl
  | [a], _ => exact List.singleton_perm.mp h

/-- Helper: when a predicate can match at most one element, find? is
invariant under permutation. -/
theorem find?_perm_unique {α : Type} (p : α → Bool) {l1 l2 : List α}
    (h : l1.Perm l2) (hu : (l1.filter p).length ≤ 1) :
    l1.find? p = l2.find? p := by
  rw [find?_eq_head?_filter, find?_eq_head?_filter,
    perm_eq_of_length_le_one (h.filter p) hu]

/-- Helper: under distinct zindices, at most one layer matches a zindex. -/
theorem filter_zindex_length_le_one (layers : List RenderLayer) (z : Int)
    (hnd : (layers.map fun l => l.zindex).Nodup) :
    (layers.filter fun l => l.zindex == z).length ≤ 1 := by
  induction layers with
  | nil => simp
  | cons a t ih =>
    rw [List.map_cons, List.nodup_cons] at hnd
    by_cases h : a.zindex = z
    · rw [List.filter_cons_of_pos (by simp [h])]
      have : (t.filter fun l => l.zindex == z) = [] := by
        rw [List.filter_eq_nil_iff]
        intro b hb hbz
        exact hnd.1 (by
          rw [show a.zindex = b.zindex by
            simp only [beq_iff_eq] at hbz; omega]
          exact List.mem_map_of_mem _ hb)
      simp [this]
    · rw [List.filter_cons_of_neg (by simp [h])]
      exact ih hnd.2

/-- Helper: listModify preserves length. -/
theorem listModify_length {α : Type} (xs : List α) (i : Nat) (f : α → α) :
    (listModify xs i f).length = xs.length := by
  induction xs generalizing i with
  | nil => rfl
  | cons a t ih =>
    cases i with
    | zero => rfl
    | succ n => simp [listModify, ih]

/-- Helper: pointwise description of listModify via getD. -/
theorem listModify_getD {α : Type} (xs : List α) (i j : Nat) (f : α → α)
    (d : α) :
    (listModify xs i f).getD j d =
      if i = j ∧ j < xs.length then f (xs.getD j d) else xs.getD j d := by
  induction xs generalizing i j with
  | nil => simp [listModify]
  | cons a t ih =>
    cases i with
    | zero =>
      cases j with
      | zero => simp [listModify]
      | succ m => simp [listModify]
    | succ n =>
      cases j with
      | zero => simp [listModify]
      | succ m =>
        simp only [listModify, List.getD_cons_succ, ih, List.length_cons]
        by_cases h : n = m ∧ m < t.length
        · rw [if_pos h, if_pos ⟨by omega, by omega⟩]
        · rw [if_neg h, if_neg (by omega)]

/-- Helper: updateLayer with a zindex-preserving mutation keeps the map of
zindices. -/
theorem updateLayer_map_zindex (layers : List RenderLayer) (z : Int)
    (f : RenderLayer → RenderLayer) (hf : ∀ l, (f l).zindex = l.zindex) :
    ((updateLayer layers z f).map fun l => l.zindex) =
      layers.map fun l => l.zindex := by
  induction layers with
  | nil => rfl
  | cons a t ih =>
    by_cases h : a.zindex = z
    · simp [updateLayer, h, hf]
    · simp [updateLayer, h, ih]

/-- Helper: updateLayer preserves membership up to the mutation. -/
theorem updateLayer_mem (layers : List RenderLayer) (z : Int)
    (f : RenderLayer → RenderLayer) (l : RenderLayer)
    (hl : l ∈ updateLayer layers z f) :
    l ∈ layers ∨ ∃ l0, l0 ∈ layers ∧ l = f l0 := by
  induction layers with
  | nil => simp [updateLayer] at hl
  | cons a t ih =>
    by_cases h : a.zindex = z
    · rw [updateLayer, if_pos h] at hl
      rcases List.mem_cons.mp hl with h1 | h1
      · exact Or.inr ⟨a, List.mem_cons_self a t, h1⟩
      · exact Or.inl (List.mem_cons_of_mem a h1)
    · rw [updateLayer, if_neg h] at hl
      rcases List.mem_cons.mp hl with h1 | h1
      · exact Or.inl (h1 ▸ List.mem_cons_self a t)
      · rcases ih h1 with h2 | ⟨l0, hl0, he⟩
        · exact Or.inl (List.mem_cons_of_mem a h2)
        · exact Or.inr ⟨l0, List.mem_cons_of_mem a hl0, he⟩

/-- Helper: find? after updateLayer with a zindex-preserving mutation. -/
theorem find?_updateLayer (layers : List RenderLayer) (z : Int)
    (f : RenderLayer → RenderLayer) (hf : ∀ l, (f l).zindex = l.zindex)
    (z' : Int) :
    ((updateLayer layers z f).find? fun l => l.zindex == z') =
      (if z' = z then (layers.find? fun l => l.zindex == z).map f
       else layers.find? fun l => l.zindex == z') := by
  induction layers with
  | nil => by_cases h : z' = z <;> simp [updateLayer, h]
  | cons a t ih =>
    by_cases h : a.zindex = z
    · rw [updateLayer, if_pos h]
      by_cases h2 : z' = z
      · rw [if_pos h2]
        rw [List.find?_cons_of_pos _ (by simp [hf, h, h2]),
          List.find?_cons_of_pos _ (by simp [h]), Option.map_some']
      · rw [if_neg h2]
        rw [List.find?_cons_of_neg _ (by simp [hf, h]; omega),
          List.find?_cons_of_neg _ (by simp [h]; omega)]
    · rw [updateLayer, if_neg h]
      by_cases h3 : a.zindex = z'
      · have h4 : ¬ z' = z := by omega
        rw [if_neg h4, List.find?_cons_of_pos _ (by simp [h3]),
          List.find?_cons_of_pos _ (by simp [h3])]
      · rw [List.find?_cons_of_neg _ (by simp; omega), ih]
        by_cases h2 : z' = z
        · rw [if_pos h2, if_pos h2, List.find?_cons_of_neg _ (by simp; omega)]
        · rw [if_neg h2, if_neg h2, List.find?_cons_of_neg _ (by simp; omega)]

/-- Helper: the snapshot count of (z, s) is the slot cursor for s < 3 and
zero otherwise, over an explicit layer list. -/
theorem qcount_snapshot_aux (layers : List RenderLayer) (z : Int) (s : Nat) :
    quad_count_for_snapshot (snapshot_layers ⟨layers⟩) z s =
      if s < 3 then slot_next ⟨layers⟩ z s else 0 := by
  induction layers with
  | nil =>
    simp [quad_count_for_snapshot, snapshot_layers, slot_next]
  | cons l t ih =>
    have hblock : snapshot_layers ⟨l :: t⟩ =
        ({ zindex := l.zindex, sub_idx := 0,
           quad_count := (l.vb.getD 0 ⟨0, 0⟩).current_quad_count } ::
         { zindex := l.zindex, sub_idx := 1,
           quad_count := (l.vb.getD 1 ⟨0, 0⟩).current_quad_count } ::
         { zindex := l.zindex, sub_idx := 2,
           quad_count := (l.vb.getD 2 ⟨0, 0⟩).current_quad_count } ::
         snapshot_layers ⟨t⟩) := rfl
    rw [hblock]
    by_cases hz : l.zindex = z
    · have hslot : ∀ s0 : Nat,
          slot_next ⟨l :: t⟩ z s0 = (l.vb.getD s0 ⟨0, 0⟩).next_quad := by
        intro s0
        unfold slot_next
        rw [show ({ layers := l :: t } : RenderState).layers = l :: t from rfl,
          List.find?_cons_of_pos _ (by simp [hz])]
      match s, (by omega : s = 0 ∨ s = 1 ∨ s = 2 ∨ 3 ≤ s) with
      | 0, _ =>
        rw [if_pos (by omega), hslot 0]
        unfold quad_count_for_snapshot
        rw [List.find?_cons_of_pos _ (by simp [hz])]
        simp [TripleVertexBuffer.current_quad_count]
      | 1, _ =>
        rw [if_pos (by omega), hslot 1]
        unfold quad_count_for_snapshot
        rw [List.find?_cons_of_neg _ (by simp),
          List.find?_cons_of_pos _ (by simp [hz])]
        simp [TripleVertexBuffer.current_quad_count]
      | 2, _ =>
        rw [if_pos (by omega), hslot 2]
        unfold quad_count_for_snapshot
        rw [List.find?_cons_of_neg _ (by simp), List.find?_cons_of_neg _ (by simp),
          List.find?_cons_of_pos _ (by simp [hz])]
        simp [TripleVertexBuffer.current_quad_count]
      | (n + 3), _ =>
        rw [if_neg (by omega)]
        unfold quad_count_for_snapshot
        rw [List.find?_cons_of_neg _ (by simp), List.find?_cons_of_neg _ (by simp),
          List.find?_cons_of_neg _ (by simp)]
        have h2 := ih
        rw [if_neg (by omega)] at h2
        unfold quad_count_for_snapshot at h2
        exact h2
    · have hstep : slot_next ⟨l :: t⟩ z s = slot_next ⟨t⟩ z s := by
        unfold slot_next
        rw [show ({ layers := l :: t } : RenderState).layers = l :: t from rfl,
          List.find?_cons_of_neg _ (by simp [hz])]
      rw [hstep]
      unfold quad_count_for_snapshot
      rw [List.find?_cons_of_neg _ (by simp [hz]),
        List.find?_cons_of_neg _ (by simp [hz]),
        List.find?_cons_of_neg _ (by simp [hz])]
      have h2 := ih
      unfold quad_count_for_snapshot at h2
      exact h2

/-- Helper: the snapshot count of (z, s) is the slot cursor for s < 3. -/
theorem qcount_snapshot (rs : RenderState) (z : Int) (s : Nat) :
    quad_count_for_snapshot (snapshot_layers rs) z s =
      if s < 3 then slot_next rs z s else 0 :=
  qcount_snapshot_aux rs.layers z s

/-- Helper: the fresh render state is well formed. -/
theorem wf_new : RenderState.new.wf := by
  constructor
  · simp [RenderState.new, RenderLayer.new]
  · intro l hl
    simp [RenderState.new, RenderLayer.new] at hl
    simp [hl]

/-- Helper: layer_for_zindex leaves every slot cursor unchanged. -/
theorem slot_next_ensure (rs : RenderState) (hwf : rs.wf) (zc z : Int) (s : Nat) :
    slot_next (rs.layer_for_zindex zc) z s = slot_next rs z s := by
  unfold RenderState.layer_for_zindex
  by_cases hex : rs.layers.any fun l => l.zindex == zc
  · rw [if_pos hex]
  · rw [if_neg hex]
    unfold slot_next
    have hperm : ((rs.layers ++ [RenderLayer.new 128 zc]).mergeSort
        fun a b => decide (a.zindex ≤ b.zindex)).Perm
        (rs.layers ++ [RenderLayer.new 128 zc]) :=
      List.mergeSort_perm _ _
    have hnd : ((rs.layers ++ [RenderLayer.new 128 zc]).map fun l => l.zindex).Nodup := by
      rw [List.map_append]
      apply List.Nodup.append hwf.1 (by simp)
      intro a ha hb
      simp only [List.map_cons, List.map_nil, List.mem_singleton] at hb
      rcases List.mem_map.mp ha with ⟨l, hl, hlz⟩
      simp only [List.any_eq_true] at hex
      exact hex ⟨l, hl, by simp [RenderLayer.new] at hb; simp [hlz, hb]⟩
    have hu : (((rs.layers ++ [RenderLayer.new 128 zc]).mergeSort
        fun a b => decide (a.zindex ≤ b.zindex)).filter
          fun l => l.zindex == z).length ≤ 1 := by
      rw [List.Perm.length_eq (hperm.filter _)]
      exact filter_zindex_length_le_one _ z hnd
    have hfind := find?_perm_unique (fun l => l.zindex == z) hperm hu
    rw [hfind, find?_eq_head?_filter, List.filter_append]
    by_cases hz : zc = z
    · have hnone : (rs.layers.filter fun l => l.zindex == z) = [] := by
        rw [List.filter_eq_nil_iff]
        intro b hb hbz
        simp only [List.any_eq_true] at hex
        exact hex ⟨b, hb, by simp only [beq_iff_eq] at hbz ⊢; omega⟩
      rw [hnone, find?_eq_head?_filter, hnone]
      simp only [List.nil_append, List.filter_cons, List.head?_nil]
      have hpz : (((RenderLayer.new 128 zc).zindex == z) : Bool) = true := by
        simp [RenderLayer.new, hz]
      rw [hpz]
      show ((RenderLayer.new 128 zc).vb.getD s ⟨0, 0⟩).next_quad = 0
      match s with
  | 0 => rfl
  | 1 => rfl
  | 2 => rfl
  | n + 3 => rfl
    · have hnew : ([RenderLayer.new 128 zc].filter fun l => l.zindex == z) = [] := by
        simp [RenderLayer.new]
        omega
      rw [hnew, List.append_nil, find?_eq_head?_filter]

/-- Helper: layer_for_zindex preserves well-formedness. -/
theorem wf_ensure (rs : RenderState) (hwf : rs.wf) (zc : Int) :
    (rs.layer_for_zindex zc).wf := by
  unfold RenderState.layer_for_zindex
  by_cases hex : rs.layers.any fun l => l.zindex == zc
  · rw [if_pos hex]; exact hwf
  · rw [if_neg hex]
    have hperm : ((rs.layers ++ [RenderLayer.new 128 zc]).mergeSort
        fun a b => decide (a.zindex ≤ b.zindex)).Perm
        (rs.layers ++ [RenderLayer.new 128 zc]) :=
      List.mergeSort_perm _ _
    have hnd : ((rs.layers ++ [RenderLayer.new 128 zc]).map fun l => l.zindex).Nodup := by
      rw [List.map_append]
      apply List.Nodup.append hwf.1 (by simp)
      intro a ha hb
      simp only [List.map_cons, List.map_nil, List.mem_singleton] at hb
      rcases List.mem_map.mp ha with ⟨l, hl, hlz⟩
      simp only [List.any_eq_true] at hex
      exact hex ⟨l, hl, by simp [RenderLayer.new] at hb; simp [hlz, hb]⟩
    constructor
    · exact ((hperm.map fun l => l.zindex).symm).nodup hnd
    · intro l hl
      have : l ∈ rs.layers ++ [RenderLayer.new 128 zc] := hperm.mem_iff.mp hl
      rcases List.mem_append.mp this with h1 | h1
      · exact hwf.2 l h1
      · simp only [List.mem_singleton] at h1
        simp [h1, RenderLayer.new]

/-- Helper: after layer_for_zindex, a layer with that zindex exists and has
three slots. -/
theorem find?_ensure_some (rs : RenderState) (hwf : rs.wf) (zc : Int) :
    ∃ l, ((rs.layer_for_zindex zc).layers.find? fun l => l.zindex == zc) =
        some l ∧ l.vb.length = 3 := by
  have hmem : ∃ l ∈ (rs.layer_for_zindex zc).layers, l.zindex = zc := by
    unfold RenderState.layer_for_zindex
    by_cases hex : rs.layers.any fun l => l.zindex == zc
    · rw [if_pos hex]
      simp only [List.any_eq_true, beq_iff_eq] at hex
      exact hex
    · rw [if_neg hex]
      refine ⟨RenderLayer.new 128 zc, ?_, rfl⟩
      exact (List.mergeSort_perm _ _).mem_iff.mpr (by simp)
  rcases hmem with ⟨l, hl, hlz⟩
  have hsome : (((rs.layer_for_zindex zc).layers.find? fun l =>
      l.zindex == zc)).isSome := by
    rw [List.find?_isSome]
    exact ⟨l, hl, by simp [hlz]⟩
  rcases Option.isSome_iff_exists.mp hsome with ⟨l2, hl2⟩
  refine ⟨l2, hl2, ?_⟩
  exact (wf_ensure rs hwf zc).2 l2 (List.mem_of_find?_eq_some hl2)

/-- Helper: modifying one slot leaves every other slot cursor unchanged. -/
theorem slot_next_modify_ne (rs : RenderState) (z : Int) (s : Nat)
    (f : TripleVertexBuffer → TripleVertexBuffer) (z' : Int) (s' : Nat)
    (h : ¬(z' = z ∧ s' = s)) :
    slot_next (rs.modify_slot z s f) z' s' = slot_next rs z' s' := by
  unfold slot_next RenderState.modify_slot
  rw [find?_updateLayer rs.layers z
    (fun l => { zindex := l.zindex, vb := listModify l.vb s f }) (fun l => rfl) z']
  by_cases hz : z' = z
  · subst hz
    have hs : ¬ s' = s := fun hs => h ⟨rfl, hs⟩
    rw [if_pos rfl]
    rcases hfind : rs.layers.find? fun l => l.zindex == z' with _ | l <;> rw [hfind]
    · rfl
    · show ((listModify l.vb s f).getD s' ⟨0, 0⟩).next_quad =
        ((l.vb.getD s' ⟨0, 0⟩)).next_quad
      rw [listModify_getD, if_neg (by omega)]
  · rw [if_neg hz]

/-- Helper: the modified slot's cursor after modify_slot, expressed through
the found layer. -/
theorem slot_next_modify_self (rs : RenderState) (z : Int) (s : Nat)
    (f : TripleVertexBuffer → TripleVertexBuffer) :
    slot_next (rs.modify_slot z s f) z s =
      (match rs.layers.find? fun l => l.zindex == z with
       | some l => ((listModify l.vb s f).getD s ⟨0, 0⟩).next_quad
       | none => 0) := by
  unfold slot_next RenderState.modify_slot
  rw [find?_updateLayer rs.layers z
    (fun l => { zindex := l.zindex, vb := listModify l.vb s f }) (fun l => rfl) z,
    if_pos rfl]
  rcases hfind : rs.layers.find? fun l => l.zindex == z with _ | l <;> rw [hfind]
  · rfl
  · rfl

/-- Helper: modify_slot preserves well-formedness. -/
theorem wf_modify (rs : RenderState) (hwf : rs.wf) (z : Int) (s : Nat)
    (f : TripleVertexBuffer → TripleVertexBuffer) :
    (rs.modify_slot z s f).wf := by
  constructor
  · unfold RenderState.modify_slot
    rw [updateLayer_map_zindex rs.layers z
      (fun l => { zindex := l.zindex, vb := listModify l.vb s f }) (fun l => rfl)]
    exact hwf.1
  · intro l hl
    rcases updateLayer_mem _ _ _ _ hl with h1 | ⟨l0, hl0, he⟩
    · exact hwf.2 l h1
    · rw [he]
      simp only [listModify_length]
      exact hwf.2 l0 hl0

/-- Slotwise ordering of render states: no cursor decreases. -/
def rs_le (a b : RenderState) : Prop :=
  ∀ z s, slot_next a z s ≤ slot_next b z s

/-- Helper: rs_le is reflexive. -/
theorem rs_le_refl (a : RenderState) : rs_le a a := fun _ _ => le_refl _

/-- Helper: rs_le is transitive. -/
theorem rs_le_trans {a b c : RenderState} (h1 : rs_le a b) (h2 : rs_le b c) :
    rs_le a c := fun z s => le_trans (h1 z s) (h2 z s)

/-- Helper: resolving a layer and applying a cursor-non-decreasing slot
mutation preserves well-formedness and never decreases any cursor. -/
theorem modify_ensure_wf_mono (rs : RenderState) (hwf : rs.wf) (zc : Int)
    (sub : Nat) (f : TripleVertexBuffer → TripleVertexBuffer)
    (hmono : ∀ s, s.next_quad ≤ (f s).next_quad) :
    ((rs.layer_for_zindex zc).modify_slot zc sub f).wf ∧
    rs_le rs ((rs.layer_for_zindex zc).modify_slot zc sub f) := by
  refine ⟨wf_modify _ (wf_ensure rs hwf zc) _ _ _, ?_⟩
  intro z s
  by_cases h : z = zc ∧ s = sub
  · rcases h with ⟨hz, hs⟩
    subst hz; subst hs
    rw [slot_next_modify_self]
    rcases find?_ensure_some rs hwf z with ⟨l, hl, hlen⟩
    rw [hl]
    show slot_next rs z s ≤ ((listModify l.vb s f).getD s ⟨0, 0⟩).next_quad
    have hv : slot_next (rs.layer_for_zindex z) z s =
        (l.vb.getD s ⟨0, 0⟩).next_quad := by
      unfold slot_next
      rw [hl]
    rw [listModify_getD]
    by_cases hs3 : s = s ∧ s < l.vb.length
    · rw [if_pos hs3]
      calc slot_next rs z s = slot_next (rs.layer_for_zindex z) z s :=
            (slot_next_ensure rs hwf z z s).symm
        _ = (l.vb.getD s ⟨0, 0⟩).next_quad := hv
        _ ≤ (f (l.vb.getD s ⟨0, 0⟩)).next_quad := hmono _
    · rw [if_neg hs3]
      rw [slot_next_ensure rs hwf z z s] at hv
      exact le_of_eq hv
  · rw [slot_next_modify_ne _ _ _ _ _ _ h, slot_next_ensure rs hwf zc z s]

mutual

/-- Helper: executing one command preserves well-formedness and never
decreases any cursor. -/
theorem execute_command_wf_mono (rs : RenderState) (cmd : RenderCommand)
    (hwf : rs.wf) :
    (execute_command rs cmd).wf ∧ rs_le rs (execute_command rs cmd) :=
  match cmd with
  | .clear _ => ⟨hwf, rs_le_refl rs⟩
  | .setClipRect _ => ⟨hwf, rs_le_refl rs⟩
  | .beginPostProcess => ⟨hwf, rs_le_refl rs⟩
  | .nop => ⟨hwf, rs_le_refl rs⟩
  | .batch cmds => execute_commands_wf_mono cmds rs hwf
  | .fillRect layer zindex _ _ _ =>
    modify_ensure_wf_mono rs hwf zindex layer _ (fun s => Nat.le_succ _)
  | .drawQuad layer zindex _ _ _ _ _ _ =>
    modify_ensure_wf_mono rs hwf zindex layer _ (fun s => Nat.le_succ _)

/-- Helper: executing a command list preserves well-formedness and never
decreases any cursor. -/
theorem execute_commands_wf_mono (cmds : List RenderCommand) (rs : RenderState)
    (hwf : rs.wf) :
    (execute_commands cmds rs).wf ∧ rs_le rs (execute_commands cmds rs) :=
  match cmds with
  | [] => ⟨hwf, rs_le_refl rs⟩
  | c :: rest =>
    let h1 := execute_command_wf_mono rs c hwf
    let h2 := execute_commands_wf_mono rest (execute_command rs c) h1.1
    ⟨h2.1, rs_le_trans h1.2 h2.2⟩

end

/-- Helper: one advance step preserves well-formedness and never decreases
any cursor. -/
theorem advance_step_wf_mono (start : List LayerQuadSnapshot)
    (rs : RenderState) (e : LayerQuadSnapshot) (hwf : rs.wf) :
    (advance_step start rs e).wf ∧ rs_le rs (advance_step start rs e) := by
  unfold advance_step
  by_cases h : e.quad_count ≤ quad_count_for_snapshot start e.zindex e.sub_idx
  · rw [if_pos h]
    exact ⟨hwf, rs_le_refl rs⟩
  · rw [if_neg h]
    exact modify_ensure_wf_mono rs hwf e.zindex e.sub_idx _
      (fun s => Nat.le_add_right _ _)

/-- Helper: the advance fold preserves well-formedness and never decreases
any cursor. -/
theorem advance_fold_wf_mono (start : List LayerQuadSnapshot) :
    ∀ (stops : List LayerQuadSnapshot) (rs : RenderState), rs.wf →
      ((stops.foldl (advance_step start) rs).wf ∧
        rs_le rs (stops.foldl (advance_step start) rs))
  | [], rs, hwf => ⟨hwf, rs_le_refl rs⟩
  | e :: rest, rs, hwf => by
    rw [List.foldl_cons]
    have h1 := advance_step_wf_mono start rs e hwf
    have h2 := advance_fold_wf_mono start rest (advance_step start rs e) h1.1
    exact ⟨h2.1, rs_le_trans h1.2 h2.2⟩

/-- Helper: replaying a recorded range preserves well-formedness and never
decreases any cursor. -/
theorem advance_wf_mono (rs : RenderState) (r : QuadRange) (hwf : rs.wf) :
    (advance_quad_counts_for_range rs r).wf ∧
      rs_le rs (advance_quad_counts_for_range rs r) :=
  advance_fold_wf_mono r.start r.stop rs hwf

/-- Helper: one advance step leaves other slots' cursors unchanged. -/
theorem advance_step_slot_other (start : List LayerQuadSnapshot)
    (rs : RenderState) (e : LayerQuadSnapshot) (hwf : rs.wf) (z : Int) (s : Nat)
    (h : ¬(z = e.zindex ∧ s = e.sub_idx)) :
    slot_next (advance_step start rs e) z s = slot_next rs z s := by
  unfold advance_step
  by_cases hle : e.quad_count ≤ quad_count_for_snapshot start e.zindex e.sub_idx
  · rw [if_pos hle]
  · rw [if_neg hle, slot_next_modify_ne _ _ _ _ _ _ h,
      slot_next_ensure rs hwf e.zindex z s]

/-- Helper: one advance step adds exactly the recorded positive delta to its
own slot's cursor. -/
theorem advance_step_slot_self (start : List LayerQuadSnapshot)
    (rs : RenderState) (e : LayerQuadSnapshot) (hwf : rs.wf)
    (hsub : e.sub_idx < 3) :
    slot_next (advance_step start rs e) e.zindex e.sub_idx =
      slot_next rs e.zindex e.sub_idx +
        (e.quad_count - quad_count_for_snapshot start e.zindex e.sub_idx) := by
  unfold advance_step
  by_cases hle : e.quad_count ≤ quad_count_for_snapshot start e.zindex e.sub_idx
  · rw [if_pos hle]
    omega
  · rw [if_neg hle, slot_next_modify_self]
    rcases find?_ensure_some rs hwf e.zindex with ⟨l, hl, hlen⟩
    rw [hl]
    show ((listModify l.vb e.sub_idx fun s => s.advance_quad_count
        (e.quad_count - quad_count_for_snapshot start e.zindex e.sub_idx)).getD
        e.sub_idx ⟨0, 0⟩).next_quad = _
    rw [listModify_getD, if_pos ⟨rfl, by omega⟩]
    have hv : slot_next (rs.layer_for_zindex e.zindex) e.zindex e.sub_idx =
        (l.vb.getD e.sub_idx ⟨0, 0⟩).next_quad := by
      unfold slot_next
      rw [hl]
    rw [show (TripleVertexBuffer.advance_quad_count (l.vb.getD e.sub_idx ⟨0, 0⟩)
        (e.quad_count - quad_count_for_snapshot start e.zindex e.sub_idx)).next_quad =
        (l.vb.getD e.sub_idx ⟨0, 0⟩).next_quad +
          (e.quad_count - quad_count_for_snapshot start e.zindex e.sub_idx) from rfl,
      ← hv, slot_next_ensure rs hwf e.zindex e.zindex e.sub_idx]

/-- Helper: the advance fold does not touch a slot none of its entries
address. -/
theorem advance_fold_no_key (start : List LayerQuadSnapshot) :
    ∀ (stops : List LayerQuadSnapshot) (rs : RenderState), rs.wf →
      ∀ (z : Int) (s : Nat), (∀ e ∈ stops, ¬(e.zindex = z ∧ e.sub_idx = s)) →
      slot_next (stops.foldl (advance_step start) rs) z s = slot_next rs z s
  | [], rs, _, z, s, _ => rfl
  | e :: rest, rs, hwf, z, s, hnk => by
    rw [List.foldl_cons]
    have h1 := advance_step_wf_mono start rs e hwf
    rw [advance_fold_no_key start rest (advance_step start rs e) h1.1 z s
      (fun x hx => hnk x (List.mem_cons_of_mem e hx))]
    apply advance_step_slot_other start rs e hwf
    intro hc
    exact hnk e (List.mem_cons_self e rest) ⟨hc.1.symm, hc.2.symm⟩

/-- Helper: with distinct keys and in-range sub indices, the advance fold
adds exactly the recorded delta to every slot. -/
theorem advance_fold_delta (start : List LayerQuadSnapshot) :
    ∀ (stops : List LayerQuadSnapshot) (rs : RenderState), rs.wf →
      (stops.map fun e => (e.zindex, e.sub_idx)).Nodup →
      (∀ e ∈ stops, e.sub_idx < 3) →
      ∀ (z : Int) (s : Nat),
      slot_next (stops.foldl (advance_step start) rs) z s =
        slot_next rs z s +
          (quad_count_for_snapshot stops z s -
            quad_count_for_snapshot start z s)
  | [], rs, _, _, _, z, s => by
    simp [quad_count_for_snapshot]
  | e :: rest, rs, hwf, hnd, hsub, z, s => by
    rw [List.foldl_cons]
    rw [List.map_cons, List.nodup_cons] at hnd
    have h1 := advance_step_wf_mono start rs e hwf
    by_cases hkey : e.zindex = z ∧ e.sub_idx = s
    · rcases hkey with ⟨hz, hs⟩
      have hq : quad_count_for_snapshot (e :: rest) z s = e.quad_count := by
        unfold quad_count_for_snapshot
        rw [List.find?_cons_of_pos _ (by simp [hz, hs])]
        rfl
      have hnk : ∀ x ∈ rest, ¬(x.zindex = z ∧ x.sub_idx = s) := by
        intro x hx hc
        exact hnd.1 (by
          rw [show (e.zindex, e.sub_idx) = (x.zindex, x.sub_idx) by
            rw [hz, hs, hc.1, hc.2]]
          exact List.mem_map_of_mem _ hx)
      rw [advance_fold_no_key start rest (advance_step start rs e) h1.1 z s hnk,
        hq, ← hz, ← hs]
      exact advance_step_slot_self start rs e hwf
        (hsub e (List.mem_cons_self e rest))
    · have hq : quad_count_for_snapshot (e :: rest) z s =
          quad_count_for_snapshot rest z s := by
        unfold quad_count_for_snapshot
        rw [List.find?_cons_of_neg _ (by simp; intro h2 h3; exact hkey ⟨h2, h3⟩)]
      rw [advance_fold_delta start rest (advance_step start rs e) h1.1 hnd.2
          (fun x hx => hsub x (List.mem_cons_of_mem e hx)) z s,
        advance_step_slot_other start rs e hwf z s
          (fun hc => hkey ⟨hc.1.symm, hc.2.symm⟩),
        hq]

/-- Helper: a snapshot list whose entries all have sub index below 3
records nothing for sub indices 3 and up. -/
theorem qcount_high_sub (stops : List LayerQuadSnapshot)
    (hsub : ∀ e ∈ stops, e.sub_idx < 3) (z : Int) (s : Nat) (hs : 3 ≤ s) :
    quad_count_for_snapshot stops z s = 0 := by
  unfold quad_count_for_snapshot
  rw [List.find?_eq_none.mpr]
  · rfl
  · intro e he
    simp only [Bool.and_eq_true, beq_iff_eq, not_and]
    intro _
    have := hsub e he
    omega

mutual

/-- Helper: the history-collecting executor drives the arena exactly like
the plain executor. -/
theorem execute_command_with_history_fst (rs : RenderState)
    (history : ExecutionHistory) (lo tp : ℚ) (cmd : RenderCommand) :
    (execute_command_with_history rs history lo tp cmd).1 =
      execute_command rs cmd :=
  match cmd with
  | .batch cmds => execute_commands_with_history_mut_fst cmds rs history lo tp
  | .clear _ => rfl
  | .setClipRect _ => rfl
  | .beginPostProcess => rfl
  | .nop => rfl
  | .fillRect _ _ _ _ _ => rfl
  | .drawQuad _ _ _ _ _ _ _ _ => rfl

/-- Helper: list version of the previous lemma. -/
theorem execute_commands_with_history_mut_fst (cmds : List RenderCommand)
    (rs : RenderState) (history : ExecutionHistory) (lo tp : ℚ) :
    (execute_commands_with_history_mut cmds rs history lo tp).1 =
      execute_commands cmds rs :=
  match cmds with
  | [] => rfl
  | c :: rest => by
    show (execute_commands_with_history_mut rest
        (execute_command_with_history rs history lo tp c).1
        (execute_command_with_history rs history lo tp c).2 lo tp).1 =
      execute_commands rest (execute_command rs c)
    rw [execute_command_with_history_fst rs history lo tp c]
    exact execute_commands_with_history_mut_fst rest _ _ lo tp

end

/-- Helper: the fresh-history executor drives the arena exactly like the
plain executor. -/
theorem execute_commands_with_history_fst (cmds : List RenderCommand)
    (rs : RenderState) (lo tp : ℚ) :
    (execute_commands_with_history cmds rs lo tp).1 = execute_commands cmds rs :=
  execute_commands_with_history_mut_fst cmds rs ExecutionHistory.new lo tp

/-- The Continuity Store condition checked by the pane loop at a given
section index, as a function of the optional previous frame. -/
def pane_continuity_ok (previous_frame : Option FrameBuffers)
    (section_idx : Nat) : Bool :=
  match previous_frame with
  | some frame =>
    match frame.section_ranges[section_idx]? with
    | some range => frame_has_buffers_for_range frame range
    | none => false
  | none => false

/-- Helper: continuity_holds_at reads the window's stored previous frame. -/
theorem continuity_holds_at_eq (tw : TermWindow) (n : Nat) :
    continuity_holds_at tw n = pane_continuity_ok tw.prev_frame_buffers n := rfl

/-- Helper: the skip decision succeeds exactly when the candidate flag, the
chain flag and the continuity condition all hold. -/
theorem pane_prior_quad_range_isSome (F : Option FrameBuffers) (n : Nat)
    (cand chain : Bool) :
    (pane_prior_quad_range F n cand chain).isSome =
      (cand && chain && pane_continuity_ok F n) := by
  cases cand
  · simp [pane_prior_quad_range]
  · cases chain
    · simp [pane_prior_quad_range]
    · rcases F with _ | frame
      · simp [pane_prior_quad_range, pane_continuity_ok]
      · rcases hr : frame.section_ranges[n]? with _ | range
        · simp [pane_prior_quad_range, pane_continuity_ok, hr]
        · by_cases hb : frame_has_buffers_for_range frame range
          · simp [pane_prior_quad_range, pane_continuity_ok, hr, hb]
          · simp [pane_prior_quad_range, pane_continuity_ok, hr, hb]

/-- Helper: what a successful skip decision contains. -/
theorem pane_prior_quad_range_eq_some (F : Option FrameBuffers) (n : Nat)
    (cand chain : Bool) (r : QuadRange)
    (h : pane_prior_quad_range F n cand chain = some r) :
    ∃ frame, F = some frame ∧ frame.section_ranges[n]? = some r ∧
      frame_has_buffers_for_range frame r = true ∧
      cand = true ∧ chain = true := by
  cases cand
  · simp [pane_prior_quad_range] at h
  · cases chain
    · simp [pane_prior_quad_range] at h
    · rcases F with _ | frame
      · simp [pane_prior_quad_range] at h
      · rcases hr : frame.section_ranges[n]? with _ | range
        · simp [pane_prior_quad_range, hr] at h
        · by_cases hb : frame_has_buffers_for_range frame range
          · have h2 : range = r := by
              simp [pane_prior_quad_range, hr, hb] at h
              exact h
            refine ⟨frame, rfl, ?_, ?_, rfl, rfl⟩
            · rw [hr, h2]
            · rw [← h2]
              exact hb
          · simp [pane_prior_quad_range, hr, hb] at h

/-- Helper: the candidate flag holds exactly when a prior entry with the
same cache key exists. -/
theorem pane_candidate_snd (P : List (Nat × PaneFrame)) (pane : PaneDescribe) :
    ((pane_candidate P pane).2 = true) ↔
      ∃ cached, P.lookup pane.pane_id = some cached ∧
        cached.cache_key = pane.cache_key := by
  unfold pane_candidate
  rcases h : P.lookup pane.pane_id with _ | cached
  · simp
  · by_cases hk : cached.cache_key = pane.cache_key
    · simp [hk]
    · simp [hk]

/-- Helper: process_pane appends exactly its section. -/
theorem process_pane_sections (P : List (Nat × PaneFrame))
    (F : Option FrameBuffers) (vw vh : Nat) (lo tp : ℚ)
    (acc : PaneAcc) (pane : PaneDescribe) :
    (process_pane P F vw vh lo tp acc pane).sections =
      acc.sections ++ [process_section P F vw vh lo tp acc pane] := rfl

/-- Helper: the skippable flag of the appended section is the skip
decision. -/
theorem process_section_skippable (P : List (Nat × PaneFrame))
    (F : Option FrameBuffers) (vw vh : Nat) (lo tp : ℚ)
    (acc : PaneAcc) (pane : PaneDescribe) :
    (process_section P F vw vh lo tp acc pane).skippable =
      (pane_prior_quad_range F acc.sections.length
        (pane_candidate P pane).2 acc.chain_valid).isSome := rfl

/-- Helper: the chain flag after a pane is the old flag conjoined with the
pane's skippability. -/
theorem process_pane_chain_valid (P : List (Nat × PaneFrame))
    (F : Option FrameBuffers) (vw vh : Nat) (lo tp : ℚ)
    (acc : PaneAcc) (pane : PaneDescribe) :
    (process_pane P F vw vh lo tp acc pane).chain_valid =
      (acc.chain_valid &&
        (process_section P F vw vh lo tp acc pane).skippable) := by
  rw [process_section_skippable]
  show (if (pane_prior_quad_range F acc.sections.length
      (pane_candidate P pane).2 acc.chain_valid).isSome
    then acc.chain_valid else false) = _
  cases h : (pane_prior_quad_range F acc.sections.length
      (pane_candidate P pane).2 acc.chain_valid).isSome
  · simp
  · simp

/-- Helper: process_pane appends exactly one outcome. -/
theorem process_pane_outcomes (P : List (Nat × PaneFrame))
    (F : Option FrameBuffers) (vw vh : Nat) (lo tp : ℚ)
    (acc : PaneAcc) (pane : PaneDescribe) :
    (process_pane P F vw vh lo tp acc pane).cofree.prior_outcomes =
      acc.cofree.prior_outcomes ++
        [(pane_execute acc.rs lo tp (pane_candidate P pane).1
            (pane_prior_quad_range F acc.sections.length
              (pane_candidate P pane).2 acc.chain_valid)).2.1] := by
  show (acc.cofree.advance _).prior_outcomes = _
  unfold CofreeContext.advance
  rcases (pane_execute acc.rs lo tp (pane_candidate P pane).1
      (pane_prior_quad_range F acc.sections.length
        (pane_candidate P pane).2 acc.chain_valid)).2.1 with _ | stats
  · rfl
  · rfl

/-- Helper: the recorded outcome is Skipped exactly when the skip decision
succeeded. -/
theorem pane_execute_outcome_skipped (rs : RenderState) (lo tp : ℚ)
    (pf : PaneFrame) (pq : Option QuadRange) :
    ((pane_execute rs lo tp pf pq).2.1 = SectionOutcome.skipped) ↔
      pq.isSome = true := by
  rcases pq with _ | r
  · simp [pane_execute]
  · simp [pane_execute]

/-- Helper: the arena state after a pane, by the two branches. -/
theorem process_pane_rs (P : List (Nat × PaneFrame))
    (F : Option FrameBuffers) (vw vh : Nat) (lo tp : ℚ)
    (acc : PaneAcc) (pane : PaneDescribe) :
    (process_pane P F vw vh lo tp acc pane).rs =
      (pane_execute acc.rs lo tp (pane_candidate P pane).1
        (pane_prior_quad_range F acc.sections.length
          (pane_candidate P pane).2 acc.chain_valid)).1 := rfl

/-- Helper: the execute-or-skip step preserves well-formedness and never
decreases any cursor. -/
theorem pane_execute_wf_mono (rs : RenderState) (lo tp : ℚ)
    (pf : PaneFrame) (pq : Option QuadRange) (hwf : rs.wf) :
    (pane_execute rs lo tp pf pq).1.wf ∧
      rs_le rs (pane_execute rs lo tp pf pq).1 := by
  rcases pq with _ | r
  · show (execute_commands_with_history pf.commands rs lo tp).1.wf ∧
      rs_le rs (execute_commands_with_history pf.commands rs lo tp).1
    rw [execute_commands_with_history_fst]
    exact execute_commands_wf_mono pf.commands rs hwf
  · exact advance_wf_mono rs r hwf

/-- Helper: the pane loop only appends to sections and outcomes. -/
theorem pane_loop_extend (P : List (Nat × PaneFrame)) (F : Option FrameBuffers)
    (vw vh : Nat) (lo tp : ℚ) :
    ∀ (panes : List PaneDescribe) (acc : PaneAcc),
      ∃ t u,
        (List.foldl (process_pane P F vw vh lo tp) acc panes).sections =
          acc.sections ++ t ∧
        (List.foldl (process_pane P F vw vh lo tp) acc panes).cofree.prior_outcomes =
          acc.cofree.prior_outcomes ++ u
  | [], acc => ⟨[], [], by simp, by simp⟩
  | p :: rest, acc => by
    rcases pane_loop_extend P F vw vh lo tp rest (process_pane P F vw vh lo tp acc p)
      with ⟨t, u, ht, hu⟩
    rw [List.foldl_cons]
    refine ⟨process_section P F vw vh lo tp acc p :: t,
      (pane_execute acc.rs lo tp (pane_candidate P p).1
        (pane_prior_quad_range F acc.sections.length
          (pane_candidate P p).2 acc.chain_valid)).2.1 :: u, ?_, ?_⟩
    · rw [ht, process_pane_sections]
      simp
    · rw [hu, process_pane_outcomes]
      simp

/-- Helper: the pane loop adds one section per pane. -/
theorem pane_loop_sections_length (P : List (Nat × PaneFrame))
    (F : Option FrameBuffers) (vw vh : Nat) (lo tp : ℚ) :
    ∀ (panes : List PaneDescribe) (acc : PaneAcc),
      (List.foldl (process_pane P F vw vh lo tp) acc panes).sections.length =
        acc.sections.length + panes.length
  | [], acc => by simp
  | p :: rest, acc => by
    rw [List.foldl_cons,
      pane_loop_sections_length P F vw vh lo tp rest _,
      process_pane_sections]
    simp
    omega

/-- Helper: the pane loop preserves arena well-formedness and cursor
monotonicity. -/
theorem pane_loop_rs_wf (P : List (Nat × PaneFrame)) (F : Option FrameBuffers)
    (vw vh : Nat) (lo tp : ℚ) :
    ∀ (panes : List PaneDescribe) (acc : PaneAcc), acc.rs.wf →
      ((List.foldl (process_pane P F vw vh lo tp) acc panes).rs.wf ∧
        rs_le acc.rs (List.foldl (process_pane P F vw vh lo tp) acc panes).rs)
  | [], acc, hwf => ⟨hwf, rs_le_refl _⟩
  | p :: rest, acc, hwf => by
    rw [List.foldl_cons]
    have h1 : (process_pane P F vw vh lo tp acc p).rs.wf ∧
        rs_le acc.rs (process_pane P F vw vh lo tp acc p).rs := by
      rw [process_pane_rs]
      exact pane_execute_wf_mono acc.rs lo tp _ _ hwf
    have h2 := pane_loop_rs_wf P F vw vh lo tp rest _ h1.1
    exact ⟨h2.1, rs_le_trans h1.2 h2.2⟩

/-- Helper: full characterization of every pane section produced by the
pane loop: its position, the iff governing its skippable flag (candidate
cache hit, unbroken skip chain, Continuity Store validation), its recorded
outcome, and, when skipped, the exact replay of the recorded quad deltas. -/
theorem pane_loop_spec (P : List (Nat × PaneFrame)) (F : Option FrameBuffers)
    (vw vh : Nat) (lo tp : ℚ)
    (hF : ∀ frame, F = some frame → ∀ r ∈ frame.section_ranges,
      (r.stop.map fun e => (e.zindex, e.sub_idx)).Nodup ∧
        ∀ e ∈ r.stop, e.sub_idx < 3) :
    ∀ (panes : List PaneDescribe) (acc : PaneAcc) (i : Nat)
      (pane : PaneDescribe), acc.rs.wf → panes[i]? = some pane →
      ∃ sec,
        (List.foldl (process_pane P F vw vh lo tp) acc
            panes).sections[acc.sections.length + i]? = some sec ∧
        (sec.skippable = true ↔
          ((pane_candidate P pane).2 = true ∧
           (acc.chain_valid = true ∧
            ∀ j, j < i → ∃ secj,
              (List.foldl (process_pane P F vw vh lo tp) acc
                  panes).sections[acc.sections.length + j]? = some secj ∧
                secj.skippable = true) ∧
           pane_continuity_ok F (acc.sections.length + i) = true)) ∧
        (∃ o, (List.foldl (process_pane P F vw vh lo tp) acc
            panes).cofree.prior_outcomes[acc.cofree.prior_outcomes.length + i]? =
              some o ∧
          ((o = SectionOutcome.skipped) ↔ sec.skippable = true)) ∧
        (sec.skippable = true →
          ∃ frame r, F = some frame ∧
            frame.section_ranges[acc.sections.length + i]? = some r ∧
            ∀ z s, quad_count_for_snapshot sec.quad_range.stop z s -
                quad_count_for_snapshot sec.quad_range.start z s =
              quad_count_for_snapshot r.stop z s -
                quad_count_for_snapshot r.start z s)
  | [], acc, i, pane, hwf, hp => by simp at hp
  | p :: rest, acc, i, pane, hwf, hp => by
    rw [List.foldl_cons]
    obtain ⟨t, u, ht, hu⟩ := pane_loop_extend P F vw vh lo tp rest
      (process_pane P F vw vh lo tp acc p)
    have hsec0 : (List.foldl (process_pane P F vw vh lo tp)
        (process_pane P F vw vh lo tp acc p)
          rest).sections[acc.sections.length]? =
        some (process_section P F vw vh lo tp acc p) := by
      rw [ht, process_pane_sections, List.append_assoc,
        List.getElem?_append_right (le_refl _), Nat.sub_self]
      simp
    have ho0 : (List.foldl (process_pane P F vw vh lo tp)
        (process_pane P F vw vh lo tp acc p)
          rest).cofree.prior_outcomes[acc.cofree.prior_outcomes.length]? =
        some ((pane_execute acc.rs lo tp (pane_candidate P p).1
          (pane_prior_quad_range F acc.sections.length
            (pane_candidate P p).2 acc.chain_valid)).2.1) := by
      rw [hu, process_pane_outcomes, List.append_assoc,
        List.getElem?_append_right (le_refl _), Nat.sub_self]
      simp
    have hskip0 : (process_section P F vw vh lo tp acc p).skippable =
        ((pane_candidate P p).2 && acc.chain_valid &&
          pane_continuity_ok F acc.sections.length) := by
      rw [process_section_skippable, pane_prior_quad_range_isSome]
    cases i with
    | zero =>
      have hpane : p = pane := by simpa using hp
      subst hpane
      refine ⟨process_section P F vw vh lo tp acc p, by simpa using hsec0,
        ?_, ?_, ?_⟩
      · rw [hskip0]
        constructor
        · intro h
          simp only [Bool.and_eq_true] at h
          exact ⟨h.1.1, ⟨h.1.2, fun j hj => absurd hj (by omega)⟩,
            by simpa using h.2⟩
        · rintro ⟨h1, ⟨h2, _⟩, h3⟩
          simp only [Bool.and_eq_true]
          exact ⟨⟨h1, h2⟩, by simpa using h3⟩
      · refine ⟨_, by simpa using ho0, ?_⟩
        rw [pane_execute_outcome_skipped, process_section_skippable]
      · intro hsk
        rw [process_section_skippable] at hsk
        obtain ⟨r, hr⟩ := Option.isSome_iff_exists.mp hsk
        obtain ⟨frame, hFf, hidx, hbuf, hcand, hchain⟩ :=
          pane_prior_quad_range_eq_some F _ _ _ r hr
        obtain ⟨hnd, hsub⟩ := hF frame hFf r (List.getElem?_mem hidx)
        refine ⟨frame, r, hFf, by simpa using hidx, ?_⟩
        intro z s
        have hqr : (process_section P F vw vh lo tp acc p).quad_range =
            ⟨snapshot_layers acc.rs,
              snapshot_layers (advance_quad_counts_for_range acc.rs r)⟩ := by
          show (⟨snapshot_layers acc.rs, snapshot_layers
            (pane_execute acc.rs lo tp (pane_candidate P p).1
              (pane_prior_quad_range F acc.sections.length
                (pane_candidate P p).2 acc.chain_valid)).1⟩ : QuadRange) = _
          rw [hr]
          rfl
        rw [hqr]
        show quad_count_for_snapshot
            (snapshot_layers (advance_quad_counts_for_range acc.rs r)) z s -
          quad_count_for_snapshot (snapshot_layers acc.rs) z s = _
        rw [qcount_snapshot, qcount_snapshot]
        by_cases hs3 : s < 3
        · rw [if_pos hs3, if_pos hs3]
          have hda := advance_fold_delta r.start r.stop acc.rs hwf hnd hsub z s
          rw [show advance_quad_counts_for_range acc.rs r =
            r.stop.foldl (advance_step r.start) acc.rs from rfl, hda]
          omega
        · rw [if_neg hs3, if_neg hs3,
            qcount_high_sub r.stop hsub z s (by omega)]
          omega
    | succ j =>
      have hp2 : rest[j]? = some pane := by simpa using hp
      have hwf1 : (process_pane P F vw vh lo tp acc p).rs.wf := by
        rw [process_pane_rs]
        exact (pane_execute_wf_mono acc.rs lo tp _ _ hwf).1
      obtain ⟨sec, hsec, hiff, hout, hdelta⟩ :=
        pane_loop_spec P F vw vh lo tp hF rest
          (process_pane P F vw vh lo tp acc p) j pane hwf1 hp2
      have hlen1 : (process_pane P F vw vh lo tp acc p).sections.length =
          acc.sections.length + 1 := by
        rw [process_pane_sections]; simp
      have holen1 : (process_pane P F vw vh lo tp
          acc p).cofree.prior_outcomes.length =
          acc.cofree.prior_outcomes.length + 1 := by
        rw [process_pane_outcomes]; simp
      have hidx : (process_pane P F vw vh lo tp acc p).sections.length + j =
          acc.sections.length + (j + 1) := by omega
      have hoidx : (process_pane P F vw vh lo tp
          acc p).cofree.prior_outcomes.length + j =
          acc.cofree.prior_outcomes.length + (j + 1) := by omega
      rw [hidx] at hsec
      rw [hoidx] at hout
      have hchain1 := process_pane_chain_valid P F vw vh lo tp acc p
      refine ⟨sec, hsec, ?_, hout, ?_⟩
      · rw [hiff]
        constructor
        · rintro ⟨h1, ⟨h2, h3⟩, h4⟩
          rw [hchain1, Bool.and_eq_true] at h2
          refine ⟨h1, ⟨h2.1, ?_⟩, ?_⟩
          · intro j2 hj2
            cases j2 with
            | zero =>
              exact ⟨process_section P F vw vh lo tp acc p,
                by simpa using hsec0, h2.2⟩
            | succ k =>
              obtain ⟨secj, hsj, hsk2⟩ := h3 k (by omega)
              refine ⟨secj, ?_, hsk2⟩
              rw [show acc.sections.length + (k + 1) =
                (process_pane P F vw vh lo tp acc p).sections.length + k
                from by omega]
              exact hsj
          · rw [show acc.sections.length + (j + 1) =
              (process_pane P F vw vh lo tp acc p).sections.length + j
              from by omega]
            exact h4
        · rintro ⟨h1, ⟨h2, h3⟩, h4⟩
          have hs0 : (process_section P F vw vh lo tp acc p).skippable = true := by
            obtain ⟨sec0b, hsec0b, hskb⟩ := h3 0 (by omega)
            simp only [Nat.add_zero] at hsec0b
            rw [hsec0] at hsec0b
            rw [← Option.some.inj hsec0b] at hskb
            exact hskb
          refine ⟨h1, ⟨?_, ?_⟩, ?_⟩
          · rw [hchain1, Bool.and_eq_true]
            exact ⟨h2, hs0⟩
          · intro j2 hj2
            obtain ⟨secj, hsj, hsk2⟩ := h3 (j2 + 1) (by omega)
            refine ⟨secj, ?_, hsk2⟩
            rw [show (process_pane P F vw vh lo tp acc p).sections.length + j2 =
              acc.sections.length + (j2 + 1) from by omega]
            exact hsj
          · rw [show (process_pane P F vw vh lo tp acc p).sections.length + j =
              acc.sections.length + (j + 1) from by omega]
            exact h4
      · intro hsk
        obtain ⟨frame, r, hFf, hri, hd⟩ := hdelta hsk
        refine ⟨frame, r, hFf, ?_, hd⟩
        rw [show acc.sections.length + (j + 1) =
          (process_pane P F vw vh lo tp acc p).sections.length + j
          from by omega]
        exact hri

/-- Helper: clearing the quad allocation preserves well-formedness. -/
theorem wf_paint_cleared (tw : TermWindow) (h : tw.render_state.wf) :
    (paint_cleared tw).wf := by
  obtain ⟨h1, h2⟩ := h
  constructor
  · rw [show (paint_cleared tw).layers =
      tw.render_state.layers.map RenderLayer.clear_quad_allocation from rfl,
      List.map_map]
    have hc : ((fun l : RenderLayer => l.zindex) ∘
        RenderLayer.clear_quad_allocation) =
        fun l : RenderLayer => l.zindex := by
      funext l
      rfl
    rw [hc]
    exact h1
  · intro l hl
    rw [show (paint_cleared tw).layers =
      tw.render_state.layers.map RenderLayer.clear_quad_allocation from rfl]
      at hl
    obtain ⟨l0, hl0, rfl⟩ := List.mem_map.mp hl
    show (l0.vb.map TripleVertexBuffer.clear_quad_allocation).length = 3
    rw [List.length_map]
    exact h2 l0 hl0

/-- Helper: the pane-loop accumulator starts with a well-formed arena. -/
theorem paint_acc0_wf (tw : TermWindow) (inp : FrameInput)
    (h : tw.render_state.wf) : (paint_acc0 tw inp).rs.wf := by
  show (execute_commands inp.background (paint_cleared tw)).wf
  exact (execute_commands_wf_mono inp.background _ (wf_paint_cleared tw h)).1

/-- Helper: the plan sections are the pane-loop sections plus the chrome
section. -/
theorem paint_sections_eq (tw : TermWindow) (inp : FrameInput) :
    paint_sections tw inp =
      (paint_panes_acc tw inp).sections ++ [paint_chrome_section tw inp] := rfl

/-- C1: In every frame built by paint_pass, the pane section built for the
i-th visible pane is marked skippable (and its recorded outcome is Skipped,
i.e. the prior quad range is replayed instead of re-executing commands) if
and only if all three conditions hold: the pane's cache key equals the
previous frame's cached entry for that pane, every logically preceding pane
section of the same frame was also skippable, and the Continuity Store
still validates the range recorded at this section index (a range is
stored there and a buffer is still held for every (zindex, sub_idx) with a
positive quad delta in it); when any condition fails the section is fully
executed, recording an Executed outcome with its statistics — never an
error. -/
theorem paint_pass_skippable_iff (tw : TermWindow) (inp : FrameInput)
    (hwf : tw.render_state.wf)
    (hF : ∀ frame, tw.prev_frame_buffers = some frame →
      ∀ r ∈ frame.section_ranges,
        (r.stop.map fun e => (e.zindex, e.sub_idx)).Nodup ∧
          ∀ e ∈ r.stop, e.sub_idx < 3)
    (i : Nat) (pane : PaneDescribe) (hp : inp.panes[i]? = some pane) :
    ∃ sec, (paint_sections tw inp)[1 + i]? = some sec ∧
      (sec.skippable = true ↔
        ((∃ cached, tw.prev_pane_frames.lookup pane.pane_id = some cached ∧
            cached.cache_key = pane.cache_key) ∧
         (∀ j, j < i → ∃ secj, (paint_sections tw inp)[1 + j]? = some secj ∧
            secj.skippable = true) ∧
         continuity_holds_at tw (1 + i) = true)) ∧
      (∃ o, (paint_pass tw inp).2.prior_outcomes[i]? = some o ∧
        ((o = SectionOutcome.skipped) ↔ sec.skippable = true) ∧
        (sec.skippable = false → ∃ st, o = SectionOutcome.executed st)) := by
  have hi : i < inp.panes.length := by
    by_contra hlt
    push_neg at hlt
    rw [List.getElem?_eq_none hlt] at hp
    simp at hp
  obtain ⟨sec, hsec, hiff, ⟨o, ho, hos⟩, _⟩ :=
    pane_loop_spec tw.prev_pane_frames tw.prev_frame_buffers
      (paint_vw tw) (paint_vh tw) (paint_left_offset tw) (paint_top_offset tw)
      hF inp.panes (paint_acc0 tw inp) i pane (paint_acc0_wf tw inp hwf) hp
  have hfold : List.foldl
      (process_pane tw.prev_pane_frames tw.prev_frame_buffers
        (paint_vw tw) (paint_vh tw) (paint_left_offset tw)
        (paint_top_offset tw)) (paint_acc0 tw inp) inp.panes =
      paint_panes_acc tw inp := rfl
  rw [hfold] at hsec hiff ho
  have hlen : (paint_acc0 tw inp).sections.length = 1 := rfl
  have holen : (paint_acc0 tw inp).cofree.prior_outcomes.length = 0 := rfl
  rw [hlen] at hsec hiff
  rw [holen, Nat.zero_add] at ho
  have hsle : (paint_panes_acc tw inp).sections.length =
      1 + inp.panes.length := by
    have := pane_loop_sections_length tw.prev_pane_frames tw.prev_frame_buffers
      (paint_vw tw) (paint_vh tw) (paint_left_offset tw) (paint_top_offset tw)
      inp.panes (paint_acc0 tw inp)
    rw [hfold, hlen] at this
    exact this
  have hps : ∀ k, k < 1 + inp.panes.length →
      (paint_sections tw inp)[k]? = (paint_panes_acc tw inp).sections[k]? := by
    intro k hk
    rw [paint_sections_eq, List.getElem?_append_left (by rw [hsle]; exact hk)]
  have hpp : (paint_pass tw inp).2 = (paint_panes_acc tw inp).cofree := rfl
  refine ⟨sec, ?_, ?_, ⟨o, ?_, hos, ?_⟩⟩
  · rw [hps (1 + i) (by omega)]
    exact hsec
  · rw [hiff]
    constructor
    · rintro ⟨h1, ⟨_, h3⟩, h4⟩
      refine ⟨(pane_candidate_snd _ _).mp h1, ?_, ?_⟩
      · intro j hj
        obtain ⟨secj, hsj, hskj⟩ := h3 j hj
        exact ⟨secj, by rw [hps (1 + j) (by omega)]; exact hsj, hskj⟩
      · rw [continuity_holds_at_eq]
        exact h4
    · rintro ⟨h1, h2, h3⟩
      refine ⟨(pane_candidate_snd _ _).mpr h1, ⟨rfl, ?_⟩, ?_⟩
      · intro j hj
        obtain ⟨secj, hsj, hskj⟩ := h2 j hj
        refine ⟨secj, ?_, hskj⟩
        rw [← hps (1 + j) (by omega)]
        exact hsj
      · rw [continuity_holds_at_eq] at h3
        exact h3
  · rw [hpp]
    exact ho
  · intro hnsk
    cases o with
    | skipped => exact absurd (hos.mp rfl) (by simp [hnsk])
    | executed st => exact ⟨st, rfl⟩

/-- A cached pane frame for the C1 scenario: a pane whose cache key matches
across frames. -/
def c1PaneFrame : PaneFrame :=
  { pane_id := 7
    is_active := true
    bounds := ⟨0, 0, 100, 100⟩
    command_hash := 42
    cache_key := 42
    commands := []
    last_execution_stats := none
    skip_streak := 0 }

/-- A window for the C1 scenario: empty arena, a Continuity Store with two
recorded (empty) section ranges, and a cache entry for pane 7. -/
def c1Window : TermWindow :=
  { render_state := { layers := [] }
    prev_frame_buffers := some
      { buffers := []
        section_ranges := [{ start := [], stop := [] },
                           { start := [], stop := [] }] }
    prev_pane_frames := [(7, c1PaneFrame)]
    render_plan := none
    pixel_width := 0
    pixel_height := 0 }

/-- The C1 scenario frame input: pane 7 described again with the same cache
key. -/
def c1Input : FrameInput :=
  { background := []
    panes := [{ pane_id := 7, cache_key := 42, describe := c1PaneFrame }]
    chrome := [] }

/-- Witness for C1 at the concrete scenario. -/
theorem paint_pass_skippable_iff_witness :
    ∃ sec, (paint_sections c1Window c1Input)[1 + 0]? = some sec ∧
      (sec.skippable = true ↔
        ((∃ cached,
            c1Window.prev_pane_frames.lookup
              ({ pane_id := 7, cache_key := 42,
                 describe := c1PaneFrame } : PaneDescribe).pane_id =
              some cached ∧
            cached.cache_key =
              ({ pane_id := 7, cache_key := 42,
                 describe := c1PaneFrame } : PaneDescribe).cache_key) ∧
         (∀ j, j < 0 → ∃ secj,
            (paint_sections c1Window c1Input)[1 + j]? = some secj ∧
              secj.skippable = true) ∧
         continuity_holds_at c1Window (1 + 0) = true)) ∧
      (∃ o, (paint_pass c1Window c1Input).2.prior_outcomes[0]? = some o ∧
        ((o = SectionOutcome.skipped) ↔ sec.skippable = true) ∧
        (sec.skippable = false → ∃ st, o = SectionOutcome.executed st)) :=
  paint_pass_skippable_iff c1Window c1Input
    ⟨by decide, by simp [c1Window]⟩
    (fun frame hf => by
      have he := Option.some.inj hf
      intro r hr
      rw [← he] at hr
      simp only [List.mem_cons, List.not_mem_nil, or_false] at hr
      rcases hr with hr | hr <;> (subst hr; exact ⟨by decide, by simp⟩))
    0 { pane_id := 7, cache_key := 42, describe := c1PaneFrame } rfl

/-- C5 (amended): if the i-th pane's cache key is identical to the cached
entry of the previous frame, every logically preceding pane section of the
frame was also skippable (the skip chain is unbroken), and the Continuity
Store still validates the range recorded at this section index, then the
pane's section is skipped and its new QuadRange delta per
(zindex, sub_idx) equals the previous frame's recorded delta for that
section index: the skipped section's range length neither grows nor
shrinks. -/
theorem pane_skip_preserves_quad_delta (tw : TermWindow) (inp : FrameInput)
    (hwf : tw.render_state.wf)
    (hF : ∀ frame, tw.prev_frame_buffers = some frame →
      ∀ r ∈ frame.section_ranges,
        (r.stop.map fun e => (e.zindex, e.sub_idx)).Nodup ∧
          ∀ e ∈ r.stop, e.sub_idx < 3)
    (i : Nat) (pane : PaneDescribe) (hp : inp.panes[i]? = some pane)
    (hcand : ∃ cached, tw.prev_pane_frames.lookup pane.pane_id = some cached ∧
      cached.cache_key = pane.cache_key)
    (hchain : ∀ j, j < i → ∃ secj,
      (paint_sections tw inp)[1 + j]? = some secj ∧ secj.skippable = true)
    (hcont : continuity_holds_at tw (1 + i) = true) :
    ∃ sec frame r, (paint_sections tw inp)[1 + i]? = some sec ∧
      sec.skippable = true ∧
      tw.prev_frame_buffers = some frame ∧
      frame.section_ranges[1 + i]? = some r ∧
      ∀ z s, quad_count_for_snapshot sec.quad_range.stop z s -
          quad_count_for_snapshot sec.quad_range.start z s =
        quad_count_for_snapshot r.stop z s -
          quad_count_for_snapshot r.start z s := by
  have hi : i < inp.panes.length := by
    by_contra hlt
    push_neg at hlt
    rw [List.getElem?_eq_none hlt] at hp
    simp at hp
  obtain ⟨sec, hsec, hiff, _, hdelta⟩ :=
    pane_loop_spec tw.prev_pane_frames tw.prev_frame_buffers
      (paint_vw tw) (paint_vh tw) (paint_left_offset tw) (paint_top_offset tw)
      hF inp.panes (paint_acc0 tw inp) i pane (paint_acc0_wf tw inp hwf) hp
  have hfold : List.foldl
      (process_pane tw.prev_pane_frames tw.prev_frame_buffers
        (paint_vw tw) (paint_vh tw) (paint_left_offset tw)
        (paint_top_offset tw)) (paint_acc0 tw inp) inp.panes =
      paint_panes_acc tw inp := rfl
  rw [hfold] at hsec hiff
  have hlen : (paint_acc0 tw inp).sections.length = 1 := rfl
  rw [hlen] at hsec hiff hdelta
  have hsle : (paint_panes_acc tw inp).sections.length =
      1 + inp.panes.length := by
    have := pane_loop_sections_length tw.prev_pane_frames tw.prev_frame_buffers
      (paint_vw tw) (paint_vh tw) (paint_left_offset tw) (paint_top_offset tw)
      inp.panes (paint_acc0 tw inp)
    rw [hfold, hlen] at this
    exact this
  have hps : ∀ k, k < 1 + inp.panes.length →
      (paint_sections tw inp)[k]? = (paint_panes_acc tw inp).sections[k]? := by
    intro k hk
    rw [paint_sections_eq, List.getElem?_append_left (by rw [hsle]; exact hk)]
  have hsk : sec.skippable = true := by
    rw [hiff]
    refine ⟨(pane_candidate_snd _ _).mpr hcand, ⟨rfl, ?_⟩, ?_⟩
    · intro j hj
      obtain ⟨secj, hsj, hskj⟩ := hchain j hj
      refine ⟨secj, ?_, hskj⟩
      rw [← hps (1 + j) (by omega)]
      exact hsj
    · rw [continuity_holds_at_eq] at hcont
      exact hcont
  obtain ⟨frame, r, hFf, hri, hd⟩ := hdelta hsk
  refine ⟨sec, frame, r, ?_, hsk, hFf, hri, hd⟩
  rw [hps (1 + i) (by omega)]
  exact hsec

/-- A cached pane frame for the C5 scenario. -/
def c5PaneFrame : PaneFrame :=
  { pane_id := 3
    is_active := true
    bounds := ⟨0, 0, 80, 60⟩
    command_hash := 9
    cache_key := 9
    commands := []
    last_execution_stats := none
    skip_streak := 0 }

/-- A window for the C5 scenario: empty arena, a Continuity Store with two
recorded (empty) ranges, and a cache entry for pane 3. -/
def c5Window : TermWindow :=
  { render_state := { layers := [] }
    prev_frame_buffers := some
      { buffers := []
        section_ranges := [{ start := [], stop := [] },
                           { start := [], stop := [] }] }
    prev_pane_frames := [(3, c5PaneFrame)]
    render_plan := none
    pixel_width := 0
    pixel_height := 0 }

/-- The C5 scenario frame input: pane 3 described again with the same cache
key. -/
def c5Input : FrameInput :=
  { background := []
    panes := [{ pane_id := 3, cache_key := 9, describe := c5PaneFrame }]
    chrome := [] }

/-- Witness for the amended C5 at the concrete scenario. -/
theorem pane_skip_preserves_quad_delta_witness :
    ∃ sec frame r, (paint_sections c5Window c5Input)[1 + 0]? = some sec ∧
      sec.skippable = true ∧
      c5Window.prev_frame_buffers = some frame ∧
      frame.section_ranges[1 + 0]? = some r ∧
      ∀ z s, quad_count_for_snapshot sec.quad_range.stop z s -
          quad_count_for_snapshot sec.quad_range.start z s =
        quad_count_for_snapshot r.stop z s -
          quad_count_for_snapshot r.start z s :=
  pane_skip_preserves_quad_delta c5Window c5Input
    ⟨by decide, by simp [c5Window]⟩
    (fun frame hf => by
      have he := Option.some.inj hf
      intro r hr
      rw [← he] at hr
      simp only [List.mem_cons, List.not_mem_nil, or_false] at hr
      rcases hr with hr | hr <;> (subst hr; exact ⟨by decide, by simp⟩))
    0 { pane_id := 3, cache_key := 9, describe := c5PaneFrame } rfl
    ⟨c5PaneFrame, rfl, rfl⟩
    (fun j hj => absurd hj (by omega))
    (by decide)

/-- Helper: snapshot quad counts are pointwise monotone in the arena
cursors. -/
theorem qcount_snapshot_mono (a b : RenderState) (h : rs_le a b)
    (z : Int) (s : Nat) :
    quad_count_for_snapshot (snapshot_layers a) z s ≤
      quad_count_for_snapshot (snapshot_layers b) z s := by
  rw [qcount_snapshot, qcount_snapshot]
  by_cases hs : s < 3
  · rw [if_pos hs, if_pos hs]
    exact h z s
  · rw [if_neg hs, if_neg hs]

/-- Helper: the pane loop preserves the section-boundary invariant: the
last section's stop snapshot is the current arena snapshot, every section
is internally non-decreasing, and adjacent sections share their boundary
snapshot. -/
theorem pane_loop_boundaries (P : List (Nat × PaneFrame))
    (F : Option FrameBuffers) (vw vh : Nat) (lo tp : ℚ) :
    ∀ (panes : List PaneDescribe) (acc : PaneAcc), acc.rs.wf →
      (∀ (sec : RenderSection),
        acc.sections[acc.sections.length - 1]? = some sec →
        sec.quad_range.stop = snapshot_layers acc.rs) →
      (∀ (j : Nat) (sec : RenderSection), acc.sections[j]? = some sec →
        ∀ z s, quad_count_for_snapshot sec.quad_range.start z s ≤
          quad_count_for_snapshot sec.quad_range.stop z s) →
      (∀ (j : Nat) (sec sec2 : RenderSection), acc.sections[j]? = some sec →
        acc.sections[j+1]? = some sec2 →
        sec.quad_range.stop = sec2.quad_range.start) →
      ((∀ (sec : RenderSection),
        (List.foldl (process_pane P F vw vh lo tp) acc panes).sections[
          (List.foldl (process_pane P F vw vh lo tp) acc
            panes).sections.length - 1]? = some sec →
        sec.quad_range.stop =
          snapshot_layers (List.foldl (process_pane P F vw vh lo tp) acc
            panes).rs) ∧
       (∀ (j : Nat) (sec : RenderSection),
        (List.foldl (process_pane P F vw vh lo tp) acc
            panes).sections[j]? = some sec →
        ∀ z s, quad_count_for_snapshot sec.quad_range.start z s ≤
          quad_count_for_snapshot sec.quad_range.stop z s) ∧
       (∀ (j : Nat) (sec sec2 : RenderSection),
        (List.foldl (process_pane P F vw vh lo tp) acc
            panes).sections[j]? = some sec →
        (List.foldl (process_pane P F vw vh lo tp) acc
            panes).sections[j+1]? = some sec2 →
        sec.quad_range.stop = sec2.quad_range.start))
  | [], acc, hwf, h1, h2, h3 => ⟨h1, h2, h3⟩
  | p :: rest, acc, hwf, h1, h2, h3 => by
    rw [List.foldl_cons]
    have hmono := pane_execute_wf_mono acc.rs lo tp (pane_candidate P p).1
      (pane_prior_quad_range F acc.sections.length
        (pane_candidate P p).2 acc.chain_valid) hwf
    have hwf1 : (process_pane P F vw vh lo tp acc p).rs.wf := by
      rw [process_pane_rs]
      exact hmono.1
    have hstart0 : (process_section P F vw vh lo tp acc p).quad_range.start =
        snapshot_layers acc.rs := rfl
    have hstop0 : (process_section P F vw vh lo tp acc p).quad_range.stop =
        snapshot_layers (process_pane P F vw vh lo tp acc p).rs := rfl
    have hlen1 : (process_pane P F vw vh lo tp acc p).sections.length =
        acc.sections.length + 1 := by
      rw [process_pane_sections]
      simp
    refine pane_loop_boundaries P F vw vh lo tp rest
      (process_pane P F vw vh lo tp acc p) hwf1 ?_ ?_ ?_
    · intro sec h
      rw [process_pane_sections] at h
      rw [show (acc.sections ++
          [process_section P F vw vh lo tp acc p]).length - 1 =
        acc.sections.length from by simp] at h
      rw [List.getElem?_append_right (le_refl _), Nat.sub_self] at h
      simp only [List.getElem?_cons_zero, Option.some.injEq] at h
      rw [← h]
      exact hstop0
    · intro j sec h
      rw [process_pane_sections] at h
      by_cases hlt : j < acc.sections.length
      · rw [List.getElem?_append_left hlt] at h
        exact h2 j sec h
      · by_cases heq : j = acc.sections.length
        · subst heq
          rw [List.getElem?_append_right (le_refl _), Nat.sub_self] at h
          simp only [List.getElem?_cons_zero, Option.some.injEq] at h
          rw [← h, hstart0, hstop0]
          intro z s
          refine qcount_snapshot_mono acc.rs _ ?_ z s
          rw [process_pane_rs]
          exact hmono.2
        · rw [List.getElem?_eq_none (by simp; omega)] at h
          cases h
    · intro j sec sec2 h h2'
      rw [process_pane_sections] at h h2'
      by_cases hlt : j + 1 < acc.sections.length
      · rw [List.getElem?_append_left hlt] at h2'
        rw [List.getElem?_append_left (by omega)] at h
        exact h3 j sec sec2 h h2'
      · by_cases heq : j + 1 = acc.sections.length
        · rw [heq, List.getElem?_append_right (le_refl _), Nat.sub_self] at h2'
          simp only [List.getElem?_cons_zero, Option.some.injEq] at h2'
          rw [List.getElem?_append_left (by omega)] at h
          have hje : j = acc.sections.length - 1 := by omega
          rw [← h2', hstart0]
          refine h1 sec ?_
          rw [← hje]
          exact h
        · rw [List.getElem?_eq_none (by simp; omega)] at h2'
          cases h2'

/-- C2: within one frame built by paint_pass (between one
clear_quad_allocation and the next), for every (zindex, sub_idx), the
quad-count snapshots at successive section boundaries are non-decreasing:
every section's start snapshot is pointwise at most its stop snapshot
(executing commands only advances bump cursors, and skipping replays a
non-negative recorded delta), and adjacent sections share their boundary
snapshot, so the whole boundary sequence is non-decreasing. -/
theorem paint_pass_quad_counts_monotone (tw : TermWindow) (inp : FrameInput)
    (hwf : tw.render_state.wf) :
    ∀ (j : Nat) (sec : RenderSection),
      (paint_sections tw inp)[j]? = some sec →
      (∀ z s, quad_count_for_snapshot sec.quad_range.start z s ≤
        quad_count_for_snapshot sec.quad_range.stop z s) ∧
      ∀ (sec2 : RenderSection), (paint_sections tw inp)[j+1]? = some sec2 →
        sec.quad_range.stop = sec2.quad_range.start := by
  have hacc0 := paint_acc0_wf tw inp hwf
  have hcl := wf_paint_cleared tw hwf
  have h1 : ∀ (sec : RenderSection),
      (paint_acc0 tw inp).sections[(paint_acc0 tw
        inp).sections.length - 1]? = some sec →
      sec.quad_range.stop = snapshot_layers (paint_acc0 tw inp).rs := by
    intro sec h
    rw [show (paint_acc0 tw inp).sections =
      [paint_background_section tw inp] from rfl] at h
    simp at h
    rw [← h]
    rfl
  have h2 : ∀ (j : Nat) (sec : RenderSection),
      (paint_acc0 tw inp).sections[j]? = some sec →
      ∀ z s, quad_count_for_snapshot sec.quad_range.start z s ≤
        quad_count_for_snapshot sec.quad_range.stop z s := by
    intro j sec h
    rw [show (paint_acc0 tw inp).sections =
      [paint_background_section tw inp] from rfl] at h
    cases j with
    | zero =>
      simp at h
      rw [← h]
      intro z s
      exact qcount_snapshot_mono (paint_cleared tw) (paint_background_rs tw inp)
        (execute_commands_wf_mono inp.background _ hcl).2 z s
    | succ k => simp at h
  have h3 : ∀ (j : Nat) (sec sec2 : RenderSection),
      (paint_acc0 tw inp).sections[j]? = some sec →
      (paint_acc0 tw inp).sections[j+1]? = some sec2 →
      sec.quad_range.stop = sec2.quad_range.start := by
    intro j sec sec2 h h'
    rw [show (paint_acc0 tw inp).sections =
      [paint_background_section tw inp] from rfl] at h'
    simp at h'
  obtain ⟨hA, hB, hC⟩ := pane_loop_boundaries tw.prev_pane_frames
    tw.prev_frame_buffers (paint_vw tw) (paint_vh tw) (paint_left_offset tw)
    (paint_top_offset tw) inp.panes (paint_acc0 tw inp) hacc0 h1 h2 h3
  have hfold : List.foldl
      (process_pane tw.prev_pane_frames tw.prev_frame_buffers
        (paint_vw tw) (paint_vh tw) (paint_left_offset tw)
        (paint_top_offset tw)) (paint_acc0 tw inp) inp.panes =
      paint_panes_acc tw inp := rfl
  rw [hfold] at hA hB hC
  have hAwf : (paint_panes_acc tw inp).rs.wf := by
    have h := pane_loop_rs_wf tw.prev_pane_frames tw.prev_frame_buffers
      (paint_vw tw) (paint_vh tw) (paint_left_offset tw) (paint_top_offset tw)
      inp.panes (paint_acc0 tw inp) hacc0
    rw [hfold] at h
    exact h.1
  have hchmono : rs_le (paint_panes_acc tw inp).rs (paint_chrome_rs tw inp) :=
    (execute_commands_wf_mono inp.chrome _ hAwf).2
  have hlenA : 1 ≤ (paint_panes_acc tw inp).sections.length := by
    have h := pane_loop_sections_length tw.prev_pane_frames
      tw.prev_frame_buffers (paint_vw tw) (paint_vh tw) (paint_left_offset tw)
      (paint_top_offset tw) inp.panes (paint_acc0 tw inp)
    rw [hfold] at h
    rw [h, show (paint_acc0 tw inp).sections.length = 1 from rfl]
    omega
  intro j sec h
  rw [paint_sections_eq] at h
  constructor
  · by_cases hlt : j < (paint_panes_acc tw inp).sections.length
    · rw [List.getElem?_append_left hlt] at h
      exact hB j sec h
    · by_cases heq : j = (paint_panes_acc tw inp).sections.length
      · rw [heq, List.getElem?_append_right (le_refl _), Nat.sub_self] at h
        simp only [List.getElem?_cons_zero, Option.some.injEq] at h
        rw [← h]
        intro z s
        rw [show (paint_chrome_section tw inp).quad_range.start =
            snapshot_layers (paint_panes_acc tw inp).rs from rfl,
          show (paint_chrome_section tw inp).quad_range.stop =
            snapshot_layers (paint_chrome_rs tw inp) from rfl]
        exact qcount_snapshot_mono _ _ hchmono z s
      · rw [List.getElem?_eq_none (by simp; omega)] at h
        cases h
  · intro sec2 h'
    rw [paint_sections_eq] at h'
    by_cases hlt : j + 1 < (paint_panes_acc tw inp).sections.length
    · rw [List.getElem?_append_left hlt] at h'
      rw [List.getElem?_append_left (by omega)] at h
      exact hC j sec sec2 h h'
    · by_cases heq : j + 1 = (paint_panes_acc tw inp).sections.length
      · rw [heq, List.getElem?_append_right (le_refl _), Nat.sub_self] at h'
        simp only [List.getElem?_cons_zero, Option.some.injEq] at h'
        rw [List.getElem?_append_left (by omega)] at h
        rw [← h']
        have hstop : sec.quad_range.stop =
            snapshot_layers (paint_panes_acc tw inp).rs := by
          refine hA sec ?_
          rw [show (paint_panes_acc tw inp).sections.length - 1 = j from
            by omega]
          exact h
        rw [hstop]
        rfl
      · rw [List.getElem?_eq_none (by simp; omega)] at h'
        cases h'

/-- A trivial window and frame input for the C2 witness. -/
def c2Window : TermWindow :=
  { render_state := { layers := [] }
    prev_frame_buffers := none
    prev_pane_frames := []
    render_plan := none
    pixel_width := 0
    pixel_height := 0 }

/-- The C2 scenario frame input: no background, no panes, no chrome. -/
def c2Input : FrameInput :=
  { background := []
    panes := []
    chrome := [] }

/-- Witness for C2 at the concrete scenario: the background section of the
two-section plan. -/
theorem paint_pass_quad_counts_monotone_witness :
    (paint_sections c2Window c2Input)[0]? =
      some (paint_background_section c2Window c2Input) ∧
    ((∀ z s, quad_count_for_snapshot
        (paint_background_section c2Window c2Input).quad_range.start z s ≤
      quad_count_for_snapshot
        (paint_background_section c2Window c2Input).quad_range.stop z s) ∧
     ∀ (sec2 : RenderSection),
       (paint_sections c2Window c2Input)[0+1]? = some sec2 →
       (paint_background_section c2Window c2Input).quad_range.stop =
         sec2.quad_range.start) :=
  ⟨by simp [paint_sections_eq, show (paint_panes_acc c2Window c2Input).sections
      = [paint_background_section c2Window c2Input] from rfl],
   paint_pass_quad_counts_monotone c2Window c2Input
     ⟨by decide, by simp [c2Window]⟩ 0 _
     (by simp [paint_sections_eq,
       show (paint_panes_acc c2Window c2Input).sections
         = [paint_background_section c2Window c2Input] from rfl])⟩

/-- One indexed draw call recorded from the draw pass: which (zindex,
sub_idx) slot it draws from, which plan section produced it (none for the
fallback whole-buffer draw), and the index window passed to
draw_indexed. -/
structure DrawCall where
  zindex : Int
  sub_idx : Nat
  section_idx : Option Nat
  index_start : Nat
  index_end : Nat
deriving DecidableEq, Repr

/-- The per-section decision of draw_layer_sections (draw.rs): resolve the
quad window (from this frame's range, or for a skippable section from the
Continuity Store provided a buffer is still held), then apply the scissor
gate; returns the quad window drawn, or none when the section is passed
over. -/
def draw_section_range (plan : RenderPlan)
    (previous_frame : Option FrameBuffers) (zindex : Int) (sub_idx : Nat)
    (section_idx : Nat) (sec : RenderSection) : Option (Nat × Nat) :=
  let current_range := quad_range_for_section sec.quad_range zindex sub_idx
  let range :=
    if sec.skippable then
      match previous_frame with
      | some frame =>
        match frame.section_quad_range section_idx zindex sub_idx with
        | some r =>
          if (frame.buffer zindex sub_idx).isSome then some r else none
        | none => none
      | none => none
    else current_range
  match range with
  | none => none
  | some r =>
    match sec.scissor with
    | some scissor =>
      if scissor.width = 0 ∨ scissor.height = 0 then none else some r
    | none =>
      if 0 < plan.viewport_width ∧ 0 < plan.viewport_height then some r
      else none

/-- The section loop of draw_layer_sections (draw.rs), collecting the draw
calls it issues in order; the counter is the enumeration index. -/
def section_calls (plan : RenderPlan) (previous_frame : Option FrameBuffers)
    (zindex : Int) (sub_idx : Nat) : Nat → List RenderSection → List DrawCall
  | _, [] => []
  | i, sec :: rest =>
    match draw_section_range plan previous_frame zindex sub_idx i sec with
    | some r =>
      { zindex := zindex, sub_idx := sub_idx, section_idx := some i,
        index_start := r.1 * INDICES_PER_QUAD,
        index_end := r.2 * INDICES_PER_QUAD } ::
        section_calls plan previous_frame zindex sub_idx (i + 1) rest
    | none => section_calls plan previous_frame zindex sub_idx (i + 1) rest

/-- draw_layer_sections from draw.rs as the list of draw calls it issues
for one (zindex, sub_idx): the per-section calls, or the fallback
whole-buffer draw when nothing was drawn, no section had a current range,
and the slot has indices. -/
def draw_layer_sections_calls (plan : RenderPlan)
    (previous_frame : Option FrameBuffers) (zindex : Int) (sub_idx : Nat)
    (fallback_index_count : Nat) : List DrawCall :=
  let calls := section_calls plan previous_frame zindex sub_idx 0 plan.sections
  let has_range := plan.sections.any fun sec =>
    (quad_range_for_section sec.quad_range zindex sub_idx).isSome
  if calls.isEmpty && !has_range && decide (0 < fallback_index_count) then
    [{ zindex := zindex, sub_idx := sub_idx, section_idx := none,
       index_start := 0, index_end := fallback_index_count }]
  else calls

/-- The draw calls of one call_draw_webgpu pass (draw.rs): layers in vector
order, slots 0..2 within a layer, each nonempty slot drawing its plan
sections (or the whole buffer when no plan is set). -/
def call_draw_calls (tw : TermWindow) : List DrawCall :=
  tw.render_state.layers.flatMap fun layer =>
    (List.range 3).flatMap fun idx =>
      if (layer.vb.getD idx ⟨0, 0⟩).vertex_index_count.1 > 0 then
        match tw.render_plan with
        | some plan =>
          draw_layer_sections_calls plan tw.prev_frame_buffers layer.zindex
            idx (layer.vb.getD idx ⟨0, 0⟩).vertex_index_count.2
        | none =>
          [{ zindex := layer.zindex, sub_idx := idx, section_idx := none,
             index_start := 0,
             index_end := (layer.vb.getD idx ⟨0, 0⟩).vertex_index_count.2 }]
      else []

/-- The issue order the draw pass guarantees: strictly increasing zindex,
then strictly increasing slot, then plan section order. -/
def draw_call_before (a b : DrawCall) : Prop :=
  a.zindex < b.zindex ∨ (a.zindex = b.zindex ∧
    (a.sub_idx < b.sub_idx ∨ (a.sub_idx = b.sub_idx ∧
      ∃ ia ib, a.section_idx = some ia ∧ b.section_idx = some ib ∧ ia < ib)))

/-- Helper: every call emitted by the section loop carries the slot it was
called for, and points at a section of the list that passed the
draw gate. -/
theorem section_calls_mem (plan : RenderPlan)
    (previous_frame : Option FrameBuffers) (z : Int) (s : Nat) :
    ∀ (secs : List RenderSection) (i0 : Nat) (c : DrawCall),
      c ∈ section_calls plan previous_frame z s i0 secs →
      c.zindex = z ∧ c.sub_idx = s ∧
      ∃ k sec2 r, c.section_idx = some k ∧ i0 ≤ k ∧
        secs[k - i0]? = some sec2 ∧
        draw_section_range plan previous_frame z s k sec2 = some r
  | [], i0, c, hc => by simp [section_calls] at hc
  | sec :: rest, i0, c, hc => by
    rw [section_calls] at hc
    rcases hd : draw_section_range plan previous_frame z s i0 sec with _ | r
    · rw [hd] at hc
      obtain ⟨h1, h2, k, sec2, r, hk, hik, hsk, hdr⟩ :=
        section_calls_mem plan previous_frame z s rest (i0 + 1) c hc
      refine ⟨h1, h2, k, sec2, r, hk, by omega, ?_, hdr⟩
      rw [show k - i0 = (k - (i0 + 1)) + 1 from by omega,
        List.getElem?_cons_succ]
      exact hsk
    · rw [hd] at hc
      rcases List.mem_cons.mp hc with hc | hc
      · subst hc
        exact ⟨rfl, rfl, i0, sec, r, rfl, le_refl _,
          by rw [Nat.sub_self, List.getElem?_cons_zero], hd⟩
      · obtain ⟨h1, h2, k, sec2, r2, hk, hik, hsk, hdr⟩ :=
          section_calls_mem plan previous_frame z s rest (i0 + 1) c hc
        refine ⟨h1, h2, k, sec2, r2, hk, by omega, ?_, hdr⟩
        rw [show k - i0 = (k - (i0 + 1)) + 1 from by omega,
          List.getElem?_cons_succ]
        exact hsk

/-- Helper: the section loop emits calls with strictly increasing section
indices. -/
theorem section_calls_pairwise (plan : RenderPlan)
    (previous_frame : Option FrameBuffers) (z : Int) (s : Nat) :
    ∀ (secs : List RenderSection) (i0 : Nat),
      (section_calls plan previous_frame z s i0 secs).Pairwise
        fun a b => ∃ ia ib, a.section_idx = some ia ∧
          b.section_idx = some ib ∧ ia < ib
  | [], i0 => by
    rw [section_calls]
    exact List.Pairwise.nil
  | sec :: rest, i0 => by
    rw [section_calls]
    rcases hd : draw_section_range plan previous_frame z s i0 sec with _ | r
    · exact section_calls_pairwise plan previous_frame z s rest (i0 + 1)
    · refine List.Pairwise.cons ?_
        (section_calls_pairwise plan previous_frame z s rest (i0 + 1))
      intro c hc
      obtain ⟨_, _, k, sec2, r2, hk, hik, _, _⟩ :=
        section_calls_mem plan previous_frame z s rest (i0 + 1) c hc
      exact ⟨i0, k, rfl, hk, by omega⟩

/-- Helper: every call of draw_layer_sections carries its slot. -/
theorem draw_layer_sections_calls_mem (plan : RenderPlan)
    (previous_frame : Option FrameBuffers) (z : Int) (s : Nat) (fic : Nat)
    (c : DrawCall)
    (hc : c ∈ draw_layer_sections_calls plan previous_frame z s fic) :
    c.zindex = z ∧ c.sub_idx = s := by
  rw [draw_layer_sections_calls] at hc
  by_cases hcond : (section_calls plan previous_frame z s
        0 plan.sections).isEmpty &&
      !(plan.sections.any fun sec =>
        (quad_range_for_section sec.quad_range z s).isSome) &&
      decide (0 < fic)
  · rw [if_pos hcond] at hc
    simp only [List.mem_singleton] at hc
    subst hc
    exact ⟨rfl, rfl⟩
  · rw [if_neg hcond] at hc
    obtain ⟨h1, h2, _⟩ :=
      section_calls_mem plan previous_frame z s plan.sections 0 c hc
    exact ⟨h1, h2⟩

/-- Helper: draw_layer_sections issues its calls in plan section order. -/
theorem draw_layer_sections_calls_pairwise (plan : RenderPlan)
    (previous_frame : Option FrameBuffers) (z : Int) (s : Nat) (fic : Nat) :
    (draw_layer_sections_calls plan previous_frame z s fic).Pairwise
      fun a b => ∃ ia ib, a.section_idx = some ia ∧
        b.section_idx = some ib ∧ ia < ib := by
  rw [draw_layer_sections_calls]
  by_cases hcond : (section_calls plan previous_frame z s
        0 plan.sections).isEmpty &&
      !(plan.sections.any fun sec =>
        (quad_range_for_section sec.quad_range z s).isSome) &&
      decide (0 < fic)
  · rw [if_pos hcond]
    exact List.pairwise_singleton _ _
  · rw [if_neg hcond]
    exact section_calls_pairwise plan previous_frame z s plan.sections 0

/-- Helper: flatMap is pairwise-ordered when each block is and blocks are
cross-ordered. -/
theorem pairwise_flatMap {α β : Type} {R : β → β → Prop} (f : α → List β) :
    ∀ (l : List α), (∀ a ∈ l, (f a).Pairwise R) →
      l.Pairwise (fun a b => ∀ x ∈ f a, ∀ y ∈ f b, R x y) →
      (l.flatMap f).Pairwise R
  | [], _, _ => by simp
  | a :: t, hin, hcross => by
    rw [List.flatMap_cons, List.pairwise_append]
    refine ⟨hin a (List.mem_cons_self a t), ?_, ?_⟩
    · exact pairwise_flatMap f t (fun b hb => hin b (List.mem_cons_of_mem a hb))
        (List.Pairwise.sublist (List.sublist_cons_self a t) hcross)
    · intro x hx y hy
      obtain ⟨b, hb, hyb⟩ := List.mem_flatMap.mp hy
      exact (List.rel_of_pairwise_cons hcross hb) x hx y hyb

/-- The draw calls one (layer, slot) pair contributes to the pass. -/
def slot_draw_calls (tw : TermWindow) (layer : RenderLayer) (idx : Nat) :
    List DrawCall :=
  if (layer.vb.getD idx ⟨0, 0⟩).vertex_index_count.1 > 0 then
    match tw.render_plan with
    | some plan =>
      draw_layer_sections_calls plan tw.prev_frame_buffers layer.zindex
        idx (layer.vb.getD idx ⟨0, 0⟩).vertex_index_count.2
    | none =>
      [{ zindex := layer.zindex, sub_idx := idx, section_idx := none,
         index_start := 0,
         index_end := (layer.vb.getD idx ⟨0, 0⟩).vertex_index_count.2 }]
  else []

/-- Helper: call_draw_calls grouped by slot. -/
theorem call_draw_calls_eq (tw : TermWindow) :
    call_draw_calls tw = tw.render_state.layers.flatMap fun layer =>
      (List.range 3).flatMap (slot_draw_calls tw layer) := rfl

/-- Helper: a slot's calls carry that slot. -/
theorem slot_draw_calls_mem (tw : TermWindow) (layer : RenderLayer)
    (idx : Nat) (c : DrawCall) (hc : c ∈ slot_draw_calls tw layer idx) :
    c.zindex = layer.zindex ∧ c.sub_idx = idx := by
  rw [slot_draw_calls] at hc
  by_cases hv : (layer.vb.getD idx ⟨0, 0⟩).vertex_index_count.1 > 0
  · rw [if_pos hv] at hc
    rcases hplan : tw.render_plan with _ | plan
    · rw [hplan] at hc
      simp only [List.mem_singleton] at hc
      subst hc
      exact ⟨rfl, rfl⟩
    · rw [hplan] at hc
      exact draw_layer_sections_calls_mem plan tw.prev_frame_buffers
        layer.zindex idx _ c hc
  · rw [if_neg hv] at hc
    cases hc

/-- Helper: a slot's calls are issued in plan section order. -/
theorem slot_draw_calls_pairwise (tw : TermWindow) (layer : RenderLayer)
    (idx : Nat) :
    (slot_draw_calls tw layer idx).Pairwise draw_call_before := by
  rw [slot_draw_calls]
  by_cases hv : (layer.vb.getD idx ⟨0, 0⟩).vertex_index_count.1 > 0
  · rw [if_pos hv]
    rcases hplan : tw.render_plan with _ | plan
    · exact List.pairwise_singleton _ _
    · refine List.Pairwise.imp_of_mem ?_
        (draw_layer_sections_calls_pairwise plan tw.prev_frame_buffers
          layer.zindex idx _)
      intro a b ha hb hsec
      obtain ⟨haz, has⟩ := draw_layer_sections_calls_mem plan
        tw.prev_frame_buffers layer.zindex idx _ a ha
      obtain ⟨hbz, hbs⟩ := draw_layer_sections_calls_mem plan
        tw.prev_frame_buffers layer.zindex idx _ b hb
      right
      exact ⟨by rw [haz, hbz], Or.inr ⟨by rw [has, hbs], hsec⟩⟩
  · rw [if_neg hv]
    exact List.Pairwise.nil

/-- C8: the draw pass issues its indexed draw calls strictly in increasing
zindex order of layers, within a layer in increasing slot order, and
within one (zindex, sub_idx) in the RenderPlan's section order, regardless
of which sections are skipped versus freshly executed; and layer_for_zindex
keeps the layers vector strictly sorted by zindex (so the hypothesis of
the draw-order part is maintained by the arena). -/
theorem draw_calls_ordered :
    (∀ (rs : RenderState) (z : Int), rs.wf →
      List.Pairwise (· < ·) (rs.layers.map fun l => l.zindex) →
      List.Pairwise (· < ·)
        ((rs.layer_for_zindex z).layers.map fun l => l.zindex)) ∧
    (∀ (tw : TermWindow),
      List.Pairwise (· < ·) (tw.render_state.layers.map fun l => l.zindex) →
      List.Pairwise draw_call_before (call_draw_calls tw)) := by
  constructor
  · intro rs z hwf hsorted
    have hnd : (((rs.layer_for_zindex z).layers.map fun l => l.zindex)).Nodup :=
      (wf_ensure rs hwf z).1
    have hle : List.Pairwise (· ≤ ·)
        ((rs.layer_for_zindex z).layers.map fun l => l.zindex) := by
      unfold RenderState.layer_for_zindex
      by_cases hex : rs.layers.any fun l => l.zindex == z
      · rw [if_pos hex]
        exact hsorted.imp le_of_lt
      · rw [if_neg hex]
        rw [List.pairwise_map]
        refine (List.sorted_mergeSort ?_ ?_
          (rs.layers ++ [RenderLayer.new 128 z])).imp ?_
        · intro a b c hab hbc
          simp only [decide_eq_true_iff] at hab hbc ⊢
          omega
        · intro a b
          simp only [Bool.or_eq_true, decide_eq_true_iff]
          omega
        · intro a b h
          simpa using h
    have hand := hle.and hnd
    exact hand.imp fun h => lt_of_le_of_ne h.1 h.2
  · intro tw hsorted
    rw [call_draw_calls_eq]
    refine pairwise_flatMap _ tw.render_state.layers ?_ ?_
    · intro layer _
      refine pairwise_flatMap _ (List.range 3) ?_ ?_
      · intro idx _
        exact slot_draw_calls_pairwise tw layer idx
      · refine (List.pairwise_lt_range 3).imp ?_
        intro i j hij x hx y hy
        obtain ⟨hxz, hxs⟩ := slot_draw_calls_mem tw layer i x hx
        obtain ⟨hyz, hys⟩ := slot_draw_calls_mem tw layer j y hy
        right
        refine ⟨by rw [hxz, hyz], Or.inl ?_⟩
        rw [hxs, hys]
        exact hij
    · have h := List.pairwise_map.mp hsorted
      refine h.imp ?_
      intro l1 l2 hlt x hx y hy
      obtain ⟨i, _, hxi⟩ := List.mem_flatMap.mp hx
      obtain ⟨j, _, hyj⟩ := List.mem_flatMap.mp hy
      obtain ⟨hxz, _⟩ := slot_draw_calls_mem tw l1 i x hxi
      obtain ⟨hyz, _⟩ := slot_draw_calls_mem tw l2 j y hyj
      left
      rw [hxz, hyz]
      exact hlt

/-- A two-layer arena for the C8 witness. -/
def c8State : RenderState :=
  { layers := [{ zindex := 0, vb := [⟨1, 4⟩, ⟨0, 4⟩, ⟨0, 4⟩] },
               { zindex := 1, vb := [⟨1, 4⟩, ⟨0, 4⟩, ⟨0, 4⟩] }] }

/-- A window for the C8 witness: the two-layer arena and a one-section
plan covering both layers' first slots. -/
def c8Window : TermWindow :=
  { render_state := c8State
    prev_frame_buffers := none
    prev_pane_frames := []
    render_plan := some
      { sections := [{ scissor := none
                       content_hash := 0
                       quad_range :=
                         { start := []
                           stop := [{ zindex := 0, sub_idx := 0,
                                      quad_count := 1 },
                                    { zindex := 1, sub_idx := 0,
                                      quad_count := 1 }] }
                       skippable := false
                       stats := none }]
        viewport_width := 100
        viewport_height := 100 }
    pixel_width := 100
    pixel_height := 100 }

/-- Witness for C8 at the concrete scenario. -/
theorem draw_calls_ordered_witness :
    List.Pairwise (· < ·)
      ((c8State.layer_for_zindex 5).layers.map fun l => l.zindex) ∧
    List.Pairwise draw_call_before (call_draw_calls c8Window) :=
  ⟨draw_calls_ordered.1 c8State 5 ⟨by decide, by decide⟩ (by decide),
   draw_calls_ordered.2 c8Window (by decide)⟩

/-- Helper: the saturating u32 cast is monotone. -/
theorem ratToU32_mono (a b : ℚ) (h : a ≤ b) : ratToU32 a ≤ ratToU32 b := by
  unfold ratToU32
  exact min_le_min (Int.toNat_le_toNat (Int.floor_le_floor h)) (le_refl _)

/-- Helper: the saturating u32 cast sends non-positive values to zero. -/
theorem ratToU32_nonpos (q : ℚ) (h : q ≤ 0) : ratToU32 q = 0 := by
  unfold ratToU32
  have h1 : ⌊q⌋ ≤ 0 := by
    have h2 := Int.floor_le_floor h
    rwa [Int.floor_zero] at h2
  rw [Int.toNat_of_nonpos h1]
  simp

/-- Helper: the saturating u32 cast of a value at most n is at most n. -/
theorem ratToU32_le_nat (q : ℚ) (n : Nat) (h : q ≤ (n : ℚ)) :
    ratToU32 q ≤ n := by
  unfold ratToU32
  refine le_trans (min_le_left _ _) ?_
  have h1 : ⌊q⌋ ≤ (n : ℤ) := by
    have h2 := Int.floor_le_floor h
    rwa [Int.floor_natCast] at h2
  exact (Int.toNat_le_toNat h1).trans (by simp)

/-- Helper: a section gated by a zero-area scissor never passes the draw
gate. -/
theorem draw_section_range_zero_scissor (plan : RenderPlan)
    (pf : Option FrameBuffers) (z : Int) (s : Nat) (i : Nat)
    (sec : RenderSection) (r : Nat × Nat) (sc : ScissorRect)
    (h : draw_section_range plan pf z s i sec = some r)
    (hsc : sec.scissor = some sc) (hz : sc.width = 0 ∨ sc.height = 0) :
    False := by
  simp only [draw_section_range, hsc] at h
  split at h
  · exact Option.noConfusion h
  · rw [if_pos hz] at h
    exact Option.noConfusion h

/-- C10: ScissorRect::from_pane_bounds is total on all pane bounds
(including negative origins and bounds outside the viewport): width and
height are computed with saturating casts and saturating subtraction, so
they never underflow and the scissor always fits the viewport (width and
height are at most the viewport and, when positive, the scissor ends
within it); a pane that does not overlap the viewport yields a zero-width
or zero-height scissor; and the draw pass issues no draw call for a
section whose scissor has zero width or height. -/
theorem scissor_total_and_zero_skipped :
    (∀ (bounds : RectQ) (vw vh : Nat),
      (ScissorRect.from_pane_bounds bounds vw vh).width ≤ vw ∧
      (ScissorRect.from_pane_bounds bounds vw vh).height ≤ vh ∧
      (0 < (ScissorRect.from_pane_bounds bounds vw vh).width →
        (ScissorRect.from_pane_bounds bounds vw vh).x +
          (ScissorRect.from_pane_bounds bounds vw vh).width ≤ vw) ∧
      (0 < (ScissorRect.from_pane_bounds bounds vw vh).height →
        (ScissorRect.from_pane_bounds bounds vw vh).y +
          (ScissorRect.from_pane_bounds bounds vw vh).height ≤ vh)) ∧
    (∀ (bounds : RectQ) (vw vh : Nat),
      (bounds.x + bounds.width ≤ 0 ∨ (vw : ℚ) ≤ bounds.x ∨
       bounds.y + bounds.height ≤ 0 ∨ (vh : ℚ) ≤ bounds.y) →
      (ScissorRect.from_pane_bounds bounds vw vh).width = 0 ∨
        (ScissorRect.from_pane_bounds bounds vw vh).height = 0) ∧
    (∀ (plan : RenderPlan) (pf : Option FrameBuffers) (z : Int)
      (s fic i : Nat) (sec : RenderSection) (sc : ScissorRect),
      plan.sections[i]? = some sec → sec.scissor = some sc →
      sc.width = 0 ∨ sc.height = 0 →
      ∀ c ∈ draw_layer_sections_calls plan pf z s fic,
        c.section_idx ≠ some i) := by
  have hw : ∀ (bounds : RectQ) (vw vh : Nat),
      (ScissorRect.from_pane_bounds bounds vw vh).width =
        ratToU32 (min (bounds.x + bounds.width) (vw : ℚ)) -
          ratToU32 (max bounds.x 0) := fun _ _ _ => rfl
  have hh : ∀ (bounds : RectQ) (vw vh : Nat),
      (ScissorRect.from_pane_bounds bounds vw vh).height =
        ratToU32 (min (bounds.y + bounds.height) (vh : ℚ)) -
          ratToU32 (max bounds.y 0) := fun _ _ _ => rfl
  have hx : ∀ (bounds : RectQ) (vw vh : Nat),
      (ScissorRect.from_pane_bounds bounds vw vh).x =
        ratToU32 (max bounds.x 0) := fun _ _ _ => rfl
  have hy : ∀ (bounds : RectQ) (vw vh : Nat),
      (ScissorRect.from_pane_bounds bounds vw vh).y =
        ratToU32 (max bounds.y 0) := fun _ _ _ => rfl
  refine ⟨?_, ?_, ?_⟩
  · intro bounds vw vh
    have hr : ratToU32 (min (bounds.x + bounds.width) (vw : ℚ)) ≤ vw :=
      ratToU32_le_nat _ vw (min_le_right _ _)
    have hb : ratToU32 (min (bounds.y + bounds.height) (vh : ℚ)) ≤ vh :=
      ratToU32_le_nat _ vh (min_le_right _ _)
    refine ⟨?_, ?_, ?_, ?_⟩
    · rw [hw]
      omega
    · rw [hh]
      omega
    · rw [hw, hx]
      omega
    · rw [hh, hy]
      omega
  · intro bounds vw vh hdisj
    rcases hdisj with h | h | h | h
    · left
      rw [hw]
      have h0 : ratToU32 (min (bounds.x + bounds.width) (vw : ℚ)) = 0 :=
        ratToU32_nonpos _ (le_trans (min_le_left _ _) h)
      omega
    · left
      rw [hw]
      have hle : ratToU32 (min (bounds.x + bounds.width) (vw : ℚ)) ≤
          ratToU32 (max bounds.x 0) :=
        ratToU32_mono _ _ (le_trans (min_le_right _ _)
          (le_trans h (le_max_left _ _)))
      omega
    · right
      rw [hh]
      have h0 : ratToU32 (min (bounds.y + bounds.height) (vh : ℚ)) = 0 :=
        ratToU32_nonpos _ (le_trans (min_le_left _ _) h)
      omega
    · right
      rw [hh]
      have hle : ratToU32 (min (bounds.y + bounds.height) (vh : ℚ)) ≤
          ratToU32 (max bounds.y 0) :=
        ratToU32_mono _ _ (le_trans (min_le_right _ _)
          (le_trans h (le_max_left _ _)))
      omega
  · intro plan pf z s fic i sec sc hsec hsc hz c hc hci
    rw [draw_layer_sections_calls] at hc
    by_cases hcond : ((section_calls plan pf z s 0 plan.sections).isEmpty &&
        !(plan.sections.any fun sec =>
          (quad_range_for_section sec.quad_range z s).isSome) &&
        decide (0 < fic)) = true
    · rw [if_pos hcond] at hc
      simp only [List.mem_singleton] at hc
      subst hc
      exact Option.noConfusion hci
    · rw [if_neg hcond] at hc
      obtain ⟨_, _, k, sec2, r, hk, _, hsk, hdr⟩ :=
        section_calls_mem plan pf z s plan.sections 0 c hc
      rw [hci] at hk
      have hik := Option.some.inj hk
      subst hik
      rw [Nat.sub_zero, hsec] at hsk
      have hs2 := Option.some.inj hsk
      rw [hs2] at hsc
      exact draw_section_range_zero_scissor plan pf z s i sec2 r sc hdr hsc hz

/-- A one-section plan whose section carries a zero-area scissor, for the
C10 witness. -/
def c10Sec : RenderSection :=
  { scissor := some { x := 0, y := 0, width := 0, height := 0 }
    content_hash := 0
    quad_range := { start := [],
                    stop := [{ zindex := 0, sub_idx := 0, quad_count := 2 }] }
    skippable := false
    stats := none }

/-- The C10 witness plan. -/
def c10Plan : RenderPlan :=
  { sections := [c10Sec]
    viewport_width := 10
    viewport_height := 10 }

/-- Witness for C10 at concrete inputs: an off-viewport pane with negative
origin, a pane entirely right of the viewport, and the zero-scissor
section of the witness plan. -/
theorem scissor_total_and_zero_skipped_witness :
    ((ScissorRect.from_pane_bounds ⟨-5, -5, 30, 30⟩ 10 10).width ≤ 10 ∧
     (ScissorRect.from_pane_bounds ⟨-5, -5, 30, 30⟩ 10 10).height ≤ 10 ∧
     (0 < (ScissorRect.from_pane_bounds ⟨-5, -5, 30, 30⟩ 10 10).width →
       (ScissorRect.from_pane_bounds ⟨-5, -5, 30, 30⟩ 10 10).x +
         (ScissorRect.from_pane_bounds ⟨-5, -5, 30, 30⟩ 10 10).width ≤ 10) ∧
     (0 < (ScissorRect.from_pane_bounds ⟨-5, -5, 30, 30⟩ 10 10).height →
       (ScissorRect.from_pane_bounds ⟨-5, -5, 30, 30⟩ 10 10).y +
         (ScissorRect.from_pane_bounds ⟨-5, -5, 30, 30⟩ 10 10).height ≤ 10)) ∧
    ((ScissorRect.from_pane_bounds ⟨20, 0, 5, 5⟩ 10 10).width = 0 ∨
     (ScissorRect.from_pane_bounds ⟨20, 0, 5, 5⟩ 10 10).height = 0) ∧
    (∀ c ∈ draw_layer_sections_calls c10Plan none 0 0 5,
      c.section_idx ≠ some 0) :=
  ⟨scissor_total_and_zero_skipped.1 ⟨-5, -5, 30, 30⟩ 10 10,
   scissor_total_and_zero_skipped.2.1 ⟨20, 0, 5, 5⟩ 10 10
     (Or.inr (Or.inl (by norm_num))),
   scissor_total_and_zero_skipped.2.2 c10Plan none 0 0 5 0 c10Sec
     { x := 0, y := 0, width := 0, height := 0 }
     (by simp [c10Plan]) rfl (Or.inl rfl)⟩
